import Mathlib

/-!
Shallow embedding of the `loonie_reporting` threshold / anomaly-detection
engine (`src/sql_operations/thresholds.py` and `src/sql_operations/normalize.py`),
together with proofs settling the frozen claims about it.

Modelling conventions:
* Python floats are modelled as rationals (`ℚ`); the sums, means and rolling
  values the code computes on parsed inputs are exact rational operations.
  Standard deviations (`Series.std(ddof=0)`) introduce a square root, hence
  everything derived from a standard deviation lives in `ℝ` via `Real.sqrt`.
* `pd.to_datetime(errors="coerce")` / `pd.to_numeric(errors="coerce")` are
  modelled as `Option`-valued parse results carried by the row types
  (`none` = `NaT` / `NaN`), plus an executable ISO-date parser where the code
  parses date strings.
* Dates are days since 1970-01-01 (`Int`); calendar conversions (`strftime`
  month/day and year/month keys, `dt.dayofweek` with Monday = 0) use an exact
  proleptic-Gregorian civil-date conversion.
* Configuration dictionaries (`get_thresholds(metric_key)` in
  `scripts/controller.py`) are passed in as an explicit structure of
  `Option`-valued fields, `none` meaning "key absent / unparseable";
  `dict.get(key, default)` is `Option.getD`.
-/

namespace LoonieReporting

/-- Arithmetic mean of a list of rationals (pandas `Series.mean`).  For the
empty list this gives `0/0 = 0`; every use site is guarded by the same
nonemptiness checks the code performs. -/
def listMean (l : List ℚ) : ℚ := l.sum / l.length

/-- Population variance (pandas `ddof=0`, divisor `N`). -/
def listVarPop (l : List ℚ) : ℚ :=
  (l.map (fun x => (x - listMean l) ^ 2)).sum / l.length

/-- Population standard deviation (`Series.std(ddof=0)`): the square root of
the population variance, as a real number. -/
noncomputable def stdPopR (l : List ℚ) : ℝ :=
  Real.sqrt ((listVarPop l : ℚ) : ℝ)

/-- The trailing `n` entries of a list (what `Series.rolling(n)` looks at for
the last position). -/
def lastN {α : Type} (n : Nat) (l : List α) : List α := l.drop (l.length - n)

/-- The observations pandas `rolling(window=w, min_periods=1)` aggregates at
position `i`: the last `w` entries among the first `i+1` (all of them while
`i + 1 < w`). -/
def windowSlice (w : Nat) (l : List ℚ) (i : Nat) : List ℚ :=
  (l.take (i + 1)).drop (i + 1 - w)

/-- `df["value"].rolling(window=w, min_periods=1).sum()` (count metrics) or
`.mean()` (rate metrics) — one aggregated value per input position.  Note this
is pandas' positional rolling: a window of `w` *observations*, not of `w`
calendar days. -/
def rollingAgg (isCount : Bool) (w : Nat) (l : List ℚ) : List ℚ :=
  (List.range l.length).map
    (fun i => if isCount then (windowSlice w l i).sum else listMean (windowSlice w l i))

/-- Proleptic-Gregorian conversion from days-since-1970-01-01 to
`(year, month, day)` (Howard Hinnant's `civil_from_days` algorithm, as the
`datetime64` values pandas works with). -/
def civilFromDays (z0 : Int) : Int × Int × Int :=
  let z := z0 + 719468
  let era := (if 0 ≤ z then z else z - 146096) / 146097
  let doe := z - era * 146097
  let yoe := (doe - doe / 1460 + doe / 36524 - doe / 146096) / 365
  let y := yoe + era * 400
  let doy := doe - (365 * yoe + yoe / 4 - yoe / 100)
  let mp := (5 * doy + 2) / 153
  let d := doy - (153 * mp + 2) / 5 + 1
  let m := mp + (if mp < 10 then 3 else -9)
  (y + (if m ≤ 2 then 1 else 0), m, d)

/-- Inverse conversion `(year, month, day)` to days since 1970-01-01
(Hinnant's `days_from_civil`). -/
def daysFromCivil (y0 m d : Int) : Int :=
  let y := y0 - (if m ≤ 2 then 1 else 0)
  let era := (if 0 ≤ y then y else y - 399) / 400
  let yoe := y - era * 400
  let doy := (153 * (m + (if 2 < m then -3 else 9)) + 2) / 5 + d - 1
  let doe := yoe * 365 + yoe / 4 - yoe / 100 + doy
  era * 146097 + doe - 719468

/-- The `"%m-%d"` key used by the seasonal lookup (`strftime("%m-%d")`). -/
def monthDay (dt : Int) : Int × Int := ((civilFromDays dt).2.1, (civilFromDays dt).2.2)

/-- The `"%Y_%m"` key used by the monthly archive partitioning
(`strftime("%Y_%m")`). -/
def yearMonth (dt : Int) : Int × Int := ((civilFromDays dt).1, (civilFromDays dt).2.1)

/-- `Series.dt.dayofweek` (Monday = 0).  1970-01-01 was a Thursday (= 3). -/
def dayOfWeek (dt : Int) : Int := (dt + 3) % 7

/-- ASCII lower-casing of one character (`str.lower()` on this pipeline's
ASCII configuration strings). -/
def lowerChar (c : Char) : Char :=
  if 'A' ≤ c ∧ c ≤ 'Z' then Char.ofNat (c.toNat + 32) else c

/-- ASCII upper-casing of one character (`str.upper()`). -/
def upperChar (c : Char) : Char :=
  if 'a' ≤ c ∧ c ≤ 'z' then Char.ofNat (c.toNat - 32) else c

/-- `str.lower()` (structural, so that concrete instances evaluate). -/
def strLower (s : String) : String := ⟨s.data.map lowerChar⟩

/-- `str.upper()`. -/
def strUpper (s : String) : String := ⟨s.data.map upperChar⟩

/-- `str.strip()`: drop leading and trailing whitespace. -/
def strTrim (s : String) : String :=
  ⟨(((s.data.dropWhile Char.isWhitespace).reverse).dropWhile Char.isWhitespace).reverse⟩

/-- Split a character list on a separator character (structural version of
`String.splitOn` for a one-character separator). -/
def splitOnChar (c : Char) : List Char → List (List Char)
  | [] => [[]]
  | x :: xs =>
    if x = c then [] :: splitOnChar c xs
    else
      match splitOnChar c xs with
      | [] => [[x]]
      | y :: ys => (x :: y) :: ys

/-- Parse a nonempty all-digit character list as a natural number. -/
def digitsToNat? (l : List Char) : Option Nat :=
  if l = [] then none
  else if l.all Char.isDigit then
    some (l.foldl (fun acc c => 10 * acc + (c.toNat - 48)) 0)
  else none

/-- Executable model of `pd.to_datetime(s, errors="coerce")` for the ISO
`YYYY-MM-DD` strings this pipeline writes into its history store; anything
else coerces to `NaT` (`none`). -/
def parseIsoDate (s : String) : Option Int :=
  match splitOnChar '-' s.toList with
  | [ys, ms, ds] =>
    match digitsToNat? ys, digitsToNat? ms, digitsToNat? ds with
    | some y, some m, some d =>
      if ys.length = 4 ∧ ms.length = 2 ∧ ds.length = 2 ∧
          1 ≤ m ∧ m ≤ 12 ∧ 1 ≤ d ∧ d ≤ 31 then
        some (daysFromCivil (y : Int) (m : Int) (d : Int))
      else none
    | _, _, _ => none
  | _ => none

/-- The `policy` dictionary: `yellow_if_signal_count_gte` /
`red_if_signal_count_gte`, each possibly absent. -/
structure Policy where
  yellowIfSignalCountGte : Option Int
  redIfSignalCountGte : Option Int
deriving DecidableEq

/-- One element of the configured `exclude_weekdays` list: either an integer
or anything whose `str()` form is then matched against weekday names. -/
inductive WeekdayToken where
  | int : Int → WeekdayToken
  | str : String → WeekdayToken
deriving DecidableEq

/-- The `thresholds["dynamic"]` block; every key may be absent (`none`).
Numeric entries are the `_safe_float` parse result (`none` = absent,
unparseable or `NaN`). -/
structure DynCfg where
  direction : Option String
  signalsEnabled : Option (List String)
  k : Option ℚ
  window : Option Int
  zScoreLim : Option ℚ
  percentDrop : Option ℚ
  minHistoryPoints : Option Int
  minSeasonalPoints : Option Int
  excludeWeekdays : Option (List WeekdayToken)
deriving DecidableEq

/-- The `thresholds["static"]` block. -/
structure StaticCfg where
  direction : Option String
  lowerThreshold : Option ℚ
  upperThreshold : Option ℚ
deriving DecidableEq

/-- The whole `thresholds` dictionary `get_thresholds(metric_key)` resolves
for a metric (mode tag plus the mode blocks and the policy). -/
structure ThresholdsCfg where
  mode : Option String
  dynamic : Option DynCfg
  static : Option StaticCfg
  policy : Option Policy
deriving DecidableEq

/-- `thresholds.get("dynamic") or {}` when the block is missing. -/
def emptyDynCfg : DynCfg := ⟨none, none, none, none, none, none, none, none, none⟩

/-- `_status_from_signal_count`: `cfg = policy or {}`, yellow cutoff defaults
to 1, red cutoff to 2; red is checked first. -/
def statusFromSignalCount (signalCount : Int) (policy : Option Policy) : String :=
  let cfg := policy.getD ⟨none, none⟩
  let yellowAt := cfg.yellowIfSignalCountGte.getD 1
  let redAt := cfg.redIfSignalCountGte.getD 2
  if redAt ≤ signalCount then "Red"
  else if yellowAt ≤ signalCount then "Yellow"
  else "Green"

/-- `_safe_float(x) or default`: Python's `or` replaces both `None` and the
falsy float `0.0` by the default. -/
def floatOr (x : Option ℚ) (default : ℚ) : ℚ :=
  match x with
  | none => default
  | some v => if v = 0 then default else v

/-- `_direction_allows`: normalizes the direction string (`or "both"`, strip,
lower) and gates which of `L`/`U` may fire. -/
def directionAllows (direction signal : String) : Bool :=
  let d := strLower (strTrim (if direction = "" then "both" else direction))
  if d = "both" then signal == "L" || signal == "U"
  else if d = "lower_only" then signal == "L"
  else if d = "upper_only" then signal == "U"
  else signal == "L" || signal == "U"

/-- The weekday-name table of `_parse_excluded_weekdays`. -/
def weekdayNameToIndex (s : String) : Option Int :=
  if s = "mon" ∨ s = "monday" then some 0
  else if s = "tue" ∨ s = "tues" ∨ s = "tuesday" then some 1
  else if s = "wed" ∨ s = "wednesday" then some 2
  else if s = "thu" ∨ s = "thur" ∨ s = "thurs" ∨ s = "thursday" then some 3
  else if s = "fri" ∨ s = "friday" then some 4
  else if s = "sat" ∨ s = "saturday" then some 5
  else if s = "sun" ∨ s = "sunday" then some 6
  else none

/-- `_parse_excluded_weekdays`: a non-list input gives the empty set; integer
items in `0..6` are kept, every other item is stringified, stripped, lowered
and looked up in the name table (an out-of-range integer's decimal form is
never a weekday name).  The Python set is modelled as the list of parsed
indices — only membership and emptiness are ever consumed. -/
def parseExcludedWeekdays (raw : Option (List WeekdayToken)) : List Int :=
  match raw with
  | none => []
  | some items =>
    items.filterMap (fun it =>
      match it with
      | .int n => if 0 ≤ n ∧ n ≤ 6 then some n else none
      | .str s => weekdayNameToIndex (strLower (strTrim s)))

/-- One row of the `daily_df` the evaluator receives: the
`pd.to_datetime` / `pd.to_numeric` parse results of its two columns. -/
structure DailyRow where
  asOfDate : Option Int
  value : Option ℚ
deriving DecidableEq

/-- The `ThresholdResult` dataclass.  `signals` keeps the ordered
`active_signals` list (the dataclass stores its `"|".join`). -/
structure ThresholdResult where
  status : String
  lowerThreshold : Option ℝ
  upperThreshold : Option ℝ
  pctChange : Option ℚ
  seasonalZscore : Option ℝ
  signalCount : Nat
  signals : List String
  rollingPointsUsed : Nat
  seasonalPointsUsed : Nat
  weekdayFilterApplied : Bool

/-- The neutral early-return result
`ThresholdResult("Yellow", None, None, None, None, 0, "", 0, 0, flag)`. -/
def neutralResult (flag : Bool) : ThresholdResult :=
  ⟨"Yellow", none, none, none, none, 0, [], 0, 0, flag⟩

/-- Rows that survive
`df[df["as_of_date"].notna() & df["value"].notna()]`, as (date, value) pairs. -/
def parsedRows (rows : List DailyRow) : List (Int × ℚ) :=
  rows.filterMap (fun r =>
    match r.asOfDate, r.value with
    | some d, some v => some (d, v)
    | _, _ => none)

/-- Drop unparseable rows and `sort_values("as_of_date")`. -/
def cleanRows (rows : List DailyRow) : List (Int × ℚ) :=
  List.insertionSort (fun a b => a.1 ≤ b.1) (parsedRows rows)

/-- The excluded-weekday set of a metric's configuration.  Note the code reads
it from `thresholds.get("dynamic")` *before* branching on the mode, so it is
consulted in static mode too. -/
def excludedWeekdaysOf (cfg : ThresholdsCfg) : List Int :=
  parseExcludedWeekdays ((cfg.dynamic.getD emptyDynCfg).excludeWeekdays)

/-- The daily series the evaluator actually works on: parsed, sorted, and —
whenever the configured exclusion set is nonempty — with excluded weekdays
removed. -/
def workingSeries (cfg : ThresholdsCfg) (rows : List DailyRow) : List (Int × ℚ) :=
  let cleaned := cleanRows rows
  let excl := excludedWeekdaysOf cfg
  if excl.isEmpty then cleaned
  else cleaned.filter (fun p => !(excl.contains (dayOfWeek p.1)))

/-- The `x_t` rolling series: positional rolling sum (count) or mean (rate)
of the values, indexed by the row dates
(`x_series.index = df["as_of_date"]`). -/
def buildXSeries (valueType : String) (windowDays : Int) (rows : List (Int × ℚ)) :
    List (Int × ℚ) :=
  (rows.map Prod.fst).zip
    (rollingAgg (strLower valueType == "count") windowDays.toNat (rows.map Prod.snd))

/-- The dynamic-mode rolling-statistics bound:
`x_series.rolling(window=rolling_window, min_periods=rolling_window)` mean and
population std at the last position — defined only when the series has at
least `min_history_points` entries (the code's guard) *and* at least
`rolling_window` entries (otherwise `min_periods` makes the statistic `NaN`
and `_safe_float` discards it). -/
noncomputable def rollingBounds (k : ℚ) (rollingWindow minHistoryPoints : Int)
    (xs : List (Int × ℚ)) : Option ℝ × Option ℝ :=
  if minHistoryPoints ≤ (xs.length : Int) ∧ 1 ≤ rollingWindow ∧
      rollingWindow ≤ (xs.length : Int) then
    let tail := lastN rollingWindow.toNat (xs.map Prod.snd)
    (some ((listMean tail : ℝ) - (k : ℝ) * stdPopR tail),
     some ((listMean tail : ℝ) + (k : ℝ) * stdPopR tail))
  else (none, none)

/-- The seasonal z-score block: same month-day entries strictly before the
latest date; the z-score is produced when there are at least
`min_seasonal_points` of them and their std is nonzero (`s_std not in
(None, 0)`).  Returns (z-score, `seasonal_points_used`). -/
noncomputable def seasonalStats (minSeasonalPoints : Int) (xs : List (Int × ℚ))
    (xt : ℚ) : Option ℝ × Nat :=
  let latestDate := (xs.getLast?.getD (0, 0)).1
  let hist := xs.filter (fun p => monthDay p.1 = monthDay latestDate ∧ p.1 < latestDate)
  let vals := hist.map Prod.snd
  (if minSeasonalPoints ≤ (hist.length : Int) ∧ ¬ listVarPop vals = 0 then
      some (((xt : ℝ) - (listMean vals : ℝ)) / stdPopR vals)
    else none,
   hist.length)

/-- `policy or {"yellow_if_signal_count_gte": 1, "red_if_signal_count_gte": 1}`
— the strict fallback of the static branch. -/
def staticPolicyOf (p : Option Policy) : Option Policy :=
  some (p.getD ⟨some 1, some 1⟩)

/-- The effective enabled-signal set: the configured list uppercased and
stripped, or the full `{L, U, Z, P}` when not configured as a list. -/
def effSignalsEnabled (dyn : DynCfg) : List String :=
  match dyn.signalsEnabled with
  | some l => l.map (fun s : String => strUpper (strTrim s))
  | none => ["L", "U", "Z", "P"]

/-- The body of `evaluate_thresholds_for_window` after the early returns:
`ws` is the parsed, sorted, weekday-filtered (nonempty) daily series and
`flag` the `weekday_filter_applied` value. -/
noncomputable def evaluateCore (cfg : ThresholdsCfg) (valueType : String)
    (windowDays : Int) (ws : List (Int × ℚ)) (flag : Bool) : ThresholdResult :=
  let xs := buildXSeries valueType windowDays ws
  let xt : ℚ := (xs.getLast?.getD (0, 0)).2
  let xprev : Option ℚ :=
    if 2 ≤ xs.length then (xs[xs.length - 2]?).map Prod.snd else none
  let pctChange : Option ℚ :=
    match xprev with
    | some p => if p = 0 then none else some ((xt - p) / p)
    | none => none
  let mode := strLower (cfg.mode.getD "static")
  if mode = "dynamic" then
    let dyn := cfg.dynamic.getD emptyDynCfg
    let direction := dyn.direction.getD "both"
    let signalsEnabled := effSignalsEnabled dyn
    let k := floatOr dyn.k 1
    let rollingWindow := dyn.window.getD 30
    let zScoreLim := floatOr dyn.zScoreLim 2
    let percentDrop := floatOr dyn.percentDrop (1 / 2)
    let minHistoryPoints := dyn.minHistoryPoints.getD (max rollingWindow 10)
    let minSeasonalPoints := dyn.minSeasonalPoints.getD 5
    let bounds := rollingBounds k rollingWindow minHistoryPoints xs
    let rollingPointsUsed :=
      if minHistoryPoints ≤ (xs.length : Int) ∧ 1 ≤ rollingWindow ∧
          rollingWindow ≤ (xs.length : Int)
      then min xs.length rollingWindow.toNat else 0
    let seasonal := seasonalStats minSeasonalPoints xs xt
    let activeL : List String :=
      match bounds.1 with
      | some l =>
        if signalsEnabled.contains "L" = true ∧ directionAllows direction "L" = true ∧
            (xt : ℝ) ≤ l then ["L"] else []
      | none => []
    let activeU : List String :=
      match bounds.2 with
      | some u =>
        if signalsEnabled.contains "U" = true ∧ directionAllows direction "U" = true ∧
            u ≤ (xt : ℝ) then ["U"] else []
      | none => []
    let activeZ : List String :=
      match seasonal.1 with
      | some z =>
        if signalsEnabled.contains "Z" = true ∧ (zScoreLim : ℝ) ≤ |z| then ["Z"] else []
      | none => []
    let activeP : List String :=
      match pctChange with
      | some pc =>
        if signalsEnabled.contains "P" = true ∧ percentDrop ≤ |pc| then ["P"] else []
      | none => []
    let active := activeL ++ activeU ++ activeZ ++ activeP
    { status := statusFromSignalCount (active.length : Int) cfg.policy
      lowerThreshold := bounds.1
      upperThreshold := bounds.2
      pctChange := pctChange
      seasonalZscore := seasonal.1
      signalCount := active.length
      signals := active
      rollingPointsUsed := rollingPointsUsed
      seasonalPointsUsed := seasonal.2
      weekdayFilterApplied := flag }
  else
    let sc := cfg.static.getD ⟨none, none, none⟩
    let direction := sc.direction.getD "both"
    let activeL : List String :=
      match sc.lowerThreshold with
      | some l => if directionAllows direction "L" = true ∧ xt ≤ l then ["L"] else []
      | none => []
    let activeU : List String :=
      match sc.upperThreshold with
      | some u => if directionAllows direction "U" = true ∧ u ≤ xt then ["U"] else []
      | none => []
    let active := activeL ++ activeU
    { status := statusFromSignalCount (active.length : Int) (staticPolicyOf cfg.policy)
      lowerThreshold := sc.lowerThreshold.map (fun q => (q : ℝ))
      upperThreshold := sc.upperThreshold.map (fun q => (q : ℝ))
      pctChange := pctChange
      seasonalZscore := none
      signalCount := active.length
      signals := active
      rollingPointsUsed := 0
      seasonalPointsUsed := 0
      weekdayFilterApplied := flag }

/-- `evaluate_thresholds_for_window(daily_df, metric_key, value_type,
window_days)`.  The configuration dictionary `get_thresholds(metric_key)` and
the mode `threshold_mode(metric_key, default="static")` are passed in as the
resolved `cfg` value.  Early returns: empty input, input emptied by parsing,
and input emptied by weekday exclusion (the last case only arises when the
exclusion set is nonempty, so the merged guard returns the code's
`weekday_filter_applied=True` there). -/
noncomputable def evaluateThresholdsForWindow (cfg : ThresholdsCfg)
    (dailyRows : List DailyRow) (valueType : String) (windowDays : Int) :
    ThresholdResult :=
  if dailyRows = [] then neutralResult false
  else if cleanRows dailyRows = [] then neutralResult false
  else
    let excl := excludedWeekdaysOf cfg
    let ws := workingSeries cfg dailyRows
    if ws = [] then neutralResult (!excl.isEmpty)
    else evaluateCore cfg valueType windowDays ws (!excl.isEmpty)

/-- One persisted history row (`make_kpi_row` output / one CSV line).  The
four natural-key columns are explicit; the remaining columns (`metric_label`,
`value`, `value_type`, `source`, `refreshed_at`) ride along opaquely in
`payload` — `append_history_rows` never inspects them. -/
structure HistRow where
  asOfDate : String
  windowDays : Int
  sectionName : String
  metricKey : String
  payload : String
deriving DecidableEq

/-- The natural key `(as_of_date, window_days, section, metric_key)` used by
`drop_duplicates(subset=key_cols)`.  (`section` is a keyword here, hence the
field name `sectionName`.) -/
def natKey (r : HistRow) : String × Int × String × String :=
  (r.asOfDate, r.windowDays, r.sectionName, r.metricKey)

/-- One lexicographic step of the sort comparison: order by `f` first, by
`inner` on ties. -/
def lexComb {γ : Type} [LinearOrder γ] (f : HistRow → γ)
    (inner : HistRow → HistRow → Bool) (a b : HistRow) : Bool :=
  if f a = f b then inner a b else decide (f a < f b)

/-- `sort_values(by=["as_of_date", "section", "metric_key", "window_days"])`
as a Boolean comparison (ISO date strings compare like the dates they
denote). -/
def rowSortLe : HistRow → HistRow → Bool :=
  lexComb (fun r => r.asOfDate)
    (lexComb (fun r => r.sectionName)
      (lexComb (fun r => r.metricKey)
        (fun a b => decide (a.windowDays ≤ b.windowDays))))

/-- `rowSortLe` as a relation, for sorting. -/
def rowLe (a b : HistRow) : Prop := rowSortLe a b = true

instance : DecidableRel rowLe := fun a b => by unfold rowLe; infer_instance

/-- `sort_values` by the four sort columns.  Any comparison sort is a valid
model: after deduplication no two rows tie on all four columns, so the sorted
order is unique. -/
def sortRows (l : List HistRow) : List HistRow := List.insertionSort rowLe l

/-- `drop_duplicates(subset=key_cols, keep="last")`: keep a row iff no later
row has the same natural key. -/
def dedupLast : List HistRow → List HistRow
  | [] => []
  | x :: xs => if natKey x ∈ xs.map natKey then dedupLast xs else x :: dedupLast xs

/-- The last row of `l` carrying natural key `k` (what `keep="last"`
retains for that key). -/
def lastWithKey (l : List HistRow) (k : String × Int × String × String) :
    Option HistRow :=
  (l.filter (fun r => natKey r = k)).getLast?

/-- `append_history_rows`: an empty batch of new rows returns the empty frame
(never touching the store); otherwise concatenate stored rows with the new
batch, deduplicate by natural key keeping the last occurrence, and sort. -/
def appendHistoryRows (existing newRows : List HistRow) : List HistRow :=
  if newRows = [] then []
  else sortRows (dedupLast (existing ++ newRows))

/-- The `max(as_of_date) - (retention_days - 1)` cutoff of
`apply_history_retention`, over the rows whose dates parse. -/
def retentionCutoff (rows : List HistRow) (retentionDays : Int) : Int :=
  let dates := rows.filterMap (fun r => parseIsoDate r.asOfDate)
  (match dates with
   | [] => 0
   | d :: ds => ds.foldl max d) - (retentionDays - 1)

/-- `apply_history_retention`: the (kept, archived) split of the input rows.
No-ops (empty input, `retention_days <= 0`, or no parseable date at all)
return the input unchanged with nothing archived.  Otherwise rows with
unparseable dates are dropped, rows dated at or after the cutoff are kept
(sorted, rewritten to the active store) and rows dated before it are
archived. -/
def retentionSplit (rows : List HistRow) (retentionDays : Int) :
    List HistRow × List HistRow :=
  if rows = [] ∨ retentionDays ≤ 0 then (rows, [])
  else
    let parsed := rows.filterMap
      (fun r => (parseIsoDate r.asOfDate).map (fun d => (r, d)))
    if parsed = [] then (rows, [])
    else
      let cutoff := retentionCutoff rows retentionDays
      (sortRows ((parsed.filter (fun p => cutoff ≤ p.2)).map Prod.fst),
       (parsed.filter (fun p => p.2 < cutoff)).map Prod.fst)

/-- The monthly archive partition written for key `ym` (`%Y_%m` modelled as
the (year, month) pair): the archived rows of that calendar month, sorted as
the code sorts each partition file.  (Merging with a pre-existing partition
file is filesystem state outside this model; with no pre-existing file the
code writes exactly this group.) -/
def archivePartition (rows : List HistRow) (retentionDays : Int)
    (ym : Int × Int) : List HistRow :=
  sortRows (((retentionSplit rows retentionDays).2).filter
    (fun r => (parseIsoDate r.asOfDate).map yearMonth = some ym))

/-- The windowed aggregate of `build_windowed_serving_snapshot` for one metric
group `g` (daily rows as (parsed date, `pd.to_numeric` parse result) pairs,
dates all parseable by construction there): filter to the calendar range
`[latest - (window-1), latest]`, then sum with `fillna(0)` for count metrics
or mean over the present values for rate metrics; an empty range is skipped
(`continue`). -/
def snapshotAggregate (valueType : String) (window : Int)
    (g : List (Int × Option ℚ)) (latestDate : Int) : Option ℚ :=
  let startDate := latestDate - (window - 1)
  let subset := g.filter (fun p => startDate ≤ p.1)
  if subset = [] then none
  else if valueType = "count" then some ((subset.map (fun p => p.2.getD 0)).sum)
  else some (listMean (subset.filterMap Prod.snd))

/-- The value claimed by the spec for a count window: the sum of the values
over the `w` calendar days ending at `latestDate`, missing days contributing
zero — i.e. the sum over the rows dated inside that range.  (Stated from the
spec's words, for comparison with the code's definitions.) -/
def calendarWindowSum (w : Int) (g : List (Int × ℚ)) (latestDate : Int) : ℚ :=
  ((g.filter (fun p => latestDate - (w - 1) ≤ p.1 ∧ p.1 ≤ latestDate)).map Prod.snd).sum

/-- The value claimed by the spec for a rate window: the mean over the
observations present in the `w` calendar days ending at `latestDate`.
(Stated from the spec's words, for comparison with the code's definitions.) -/
def calendarWindowMean (w : Int) (g : List (Int × ℚ)) (latestDate : Int) : ℚ :=
  listMean ((g.filter (fun p => latestDate - (w - 1) ≤ p.1 ∧ p.1 ≤ latestDate)).map Prod.snd)

/-! ### Supporting lemmas -/

lemma listMean_const {l : List ℚ} {v : ℚ} (hv : ∀ x ∈ l, x = v) (hne : l ≠ []) :
    listMean l = v := by
  have hrep : l = List.replicate l.length v := List.eq_replicate_of_mem hv
  have hn : (l.length : ℚ) ≠ 0 := by
    have hpos : 0 < l.length := List.length_pos.mpr hne
    exact_mod_cast hpos.ne'
  rw [listMean]
  calc l.sum / l.length = ((l.length : ℚ) * v) / l.length := by
        rw [hrep]; simp [List.sum_replicate, nsmul_eq_mul]
    _ = v := by field_simp

lemma listVarPop_const {l : List ℚ} {v : ℚ} (hv : ∀ x ∈ l, x = v) :
    listVarPop l = 0 := by
  rcases eq_or_ne l [] with rfl | hne
  · simp [listVarPop, listMean]
  · have hmean := listMean_const hv hne
    have : l.map (fun x => (x - listMean l) ^ 2) = List.replicate l.length 0 := by
      rw [List.eq_replicate_iff]
      refine ⟨by simp, ?_⟩
      intro b hb
      rcases List.mem_map.mp hb with ⟨x, hx, rfl⟩
      rw [hv x hx, hmean, sub_self]
      ring
    rw [listVarPop, this]
    simp

lemma stdPopR_of_var_zero {l : List ℚ} (h : listVarPop l = 0) : stdPopR l = 0 := by
  rw [stdPopR, h]
  simp

lemma windowSlice_subset {w : Nat} {l : List ℚ} {i : Nat} :
    ∀ x ∈ windowSlice w l i, x ∈ l := by
  intro x hx
  exact List.mem_of_mem_take (List.mem_of_mem_drop hx)

lemma windowSlice_ne_nil {w : Nat} {l : List ℚ} {i : Nat} (hw : 1 ≤ w)
    (hi : i < l.length) : windowSlice w l i ≠ [] := by
  have hlen : (windowSlice w l i).length = (i + 1) - (i + 1 - w) := by
    simp [windowSlice, List.length_drop, List.length_take]
    omega
  have : 0 < (windowSlice w l i).length := by omega
  exact List.length_pos.mp this

lemma rollingAgg_length (b : Bool) (w : Nat) (l : List ℚ) :
    (rollingAgg b w l).length = l.length := by
  simp [rollingAgg]

/-- Rolling mean of a constant series is that constant at every position. -/
lemma rollingAgg_mean_const {l : List ℚ} {v : ℚ} {w : Nat} (hw : 1 ≤ w)
    (hv : ∀ x ∈ l, x = v) : ∀ y ∈ rollingAgg false w l, y = v := by
  intro y hy
  rw [rollingAgg] at hy
  rcases List.mem_map.mp hy with ⟨i, hi, rfl⟩
  have hi' : i < l.length := List.mem_range.mp hi
  simp only [if_neg (by simp : ¬ (false = true))]
  exact listMean_const (fun x hx => hv x (windowSlice_subset x hx))
    (windowSlice_ne_nil hw hi')

lemma lastN_subset {α : Type} {n : Nat} {l : List α} : ∀ x ∈ lastN n l, x ∈ l :=
  fun x hx => List.mem_of_mem_drop hx

lemma lastN_length {α : Type} {n : Nat} {l : List α} (h : n ≤ l.length) :
    (lastN n l).length = n := by
  simp [lastN, List.length_drop]
  omega

lemma lastN_ne_nil {α : Type} {n : Nat} {l : List α} (hn : 1 ≤ n)
    (h : n ≤ l.length) : lastN n l ≠ [] := by
  have := lastN_length (l := l) h
  intro hcon
  rw [hcon] at this
  simp at this
  omega

lemma mem_sortRows {a : HistRow} {l : List HistRow} : a ∈ sortRows l ↔ a ∈ l :=
  (List.perm_insertionSort rowLe l).mem_iff

lemma buildXSeries_length (vt : String) (w : Int) (rows : List (Int × ℚ)) :
    (buildXSeries vt w rows).length = rows.length := by
  rw [buildXSeries, List.length_zip, rollingAgg_length, List.length_map,
    List.length_map, min_self]

/-- Values of the rolling series of a constant rate series are that
constant. -/
lemma buildXSeries_snd_const {vt : String} {w : Int} {rows : List (Int × ℚ)}
    {v : ℚ} (hvt : (strLower vt == "count") = false) (hw : 1 ≤ w)
    (hv : ∀ p ∈ rows, p.2 = v) :
    ∀ p ∈ buildXSeries vt w rows, p.2 = v := by
  intro p hp
  rw [buildXSeries] at hp
  have hsnd := (List.mem_zip hp).2
  rw [hvt] at hsnd
  refine rollingAgg_mean_const ?_ ?_ p.2 hsnd
  · omega
  · intro x hx
    rcases List.mem_map.mp hx with ⟨q, hq, rfl⟩
    exact hv q hq

lemma cleanRows_snd_const {rows : List DailyRow} {v : ℚ}
    (hv : ∀ r ∈ rows, r.value = some v) :
    ∀ p ∈ cleanRows rows, p.2 = v := by
  intro p hp
  rw [cleanRows] at hp
  have hp' := (List.perm_insertionSort (fun a b : Int × ℚ => a.1 ≤ b.1)
    (parsedRows rows)).mem_iff.mp hp
  rcases List.mem_filterMap.mp hp' with ⟨r, hr, hf⟩
  have hvr := hv r hr
  rcases hd : r.asOfDate with _ | d
  · rw [hd, hvr] at hf
    exact absurd hf (by simp)
  · rw [hd, hvr] at hf
    dsimp only at hf
    cases Option.some.inj hf
    rfl

lemma getLastD_mem {α : Type} {l : List α} (h : l ≠ []) (d : α) :
    l.getLast?.getD d ∈ l := by
  rw [List.getLast?_eq_getLast l h]
  exact List.getLast_mem h

/-- On a constant-valued rolling series the seasonal z-score is never
produced: the same-calendar-day history has zero variance. -/
lemma seasonalStats_fst_const {m : Int} {xs : List (Int × ℚ)} {xt v : ℚ}
    (hv : ∀ p ∈ xs, p.2 = v) : (seasonalStats m xs xt).1 = none := by
  rw [seasonalStats]
  dsimp only
  rw [if_neg]
  rintro ⟨_, h2⟩
  apply h2
  apply listVarPop_const
  intro x hx
  rcases List.mem_map.mp hx with ⟨p, hp, rfl⟩
  exact hv p (List.mem_filter.mp hp).1

lemma listVarPop_nonneg (l : List ℚ) : 0 ≤ listVarPop l := by
  rw [listVarPop]
  apply div_nonneg
  · apply List.sum_nonneg
    intro x hx
    rcases List.mem_map.mp hx with ⟨y, _, rfl⟩
    positivity
  · positivity

lemma stdPopR_pos {l : List ℚ} (h : listVarPop l ≠ 0) : 0 < stdPopR l := by
  rw [stdPopR]
  apply Real.sqrt_pos.mpr
  have h0 : 0 ≤ listVarPop l := listVarPop_nonneg l
  exact_mod_cast lt_of_le_of_ne h0 (Ne.symm h)

lemma stdPopR_congr {l : List ℚ} {v : ℚ} (h : listVarPop l = v) :
    stdPopR l = Real.sqrt ((v : ℚ) : ℝ) := by
  rw [stdPopR, h]

lemma floatOr_ne_zero {o : Option ℚ} {d : ℚ} (hd : d ≠ 0) : floatOr o d ≠ 0 := by
  rcases o with _ | v
  · simpa [floatOr] using hd
  · rw [floatOr]
    split_ifs with h
    · exact hd
    · exact h

/-! ### Claims -/

/-- C4: the signal-count classifier is the pure function
`Red if signal_count ≥ red_at else Yellow if ≥ yellow_at else Green`;
with no policy the thresholds default to yellow 1 / red 2, so 0 signals map
to Green, 1 to Yellow and 2 or more to Red; and the static-mode fallback
policy (no policy configured) is strict 1/1, making any single signal Red. -/
theorem statusFromSignalCount_spec :
    (∀ sc y r : Int, statusFromSignalCount sc (some ⟨some y, some r⟩) =
      if r ≤ sc then "Red" else if y ≤ sc then "Yellow" else "Green")
    ∧ statusFromSignalCount 0 none = "Green"
    ∧ statusFromSignalCount 1 none = "Yellow"
    ∧ (∀ sc : Int, 2 ≤ sc → statusFromSignalCount sc none = "Red")
    ∧ (∀ sc : Int, 1 ≤ sc → statusFromSignalCount sc (staticPolicyOf none) = "Red") := by
  refine ⟨fun sc y r => rfl, rfl, rfl, ?_, ?_⟩
  · intro sc h
    simp [statusFromSignalCount, if_pos h]
  · intro sc h
    simp [statusFromSignalCount, staticPolicyOf, if_pos h]

/-- C4 witness: the hypothesis-bearing parts at concrete signal counts. -/
theorem statusFromSignalCount_spec_witness :
    statusFromSignalCount 2 none = "Red"
    ∧ statusFromSignalCount 1 (staticPolicyOf none) = "Red" :=
  ⟨statusFromSignalCount_spec.2.2.2.1 2 (by decide),
   statusFromSignalCount_spec.2.2.2.2 1 (by decide)⟩

/-- C10: when `retention_days > 0` and the history is nonempty but no row's
date parses, `apply_history_retention` returns the input unchanged and
archives nothing. -/
theorem retention_all_unparseable_noop (rows : List HistRow) (rd : Int)
    (hne : rows ≠ []) (hrd : 0 < rd)
    (hbad : ∀ r ∈ rows, parseIsoDate r.asOfDate = none) :
    retentionSplit rows rd = (rows, [])
    ∧ ∀ ym : Int × Int, archivePartition rows rd ym = [] := by
  have hparsed : rows.filterMap
      (fun r => (parseIsoDate r.asOfDate).map (fun d => (r, d))) = [] := by
    rw [List.filterMap_eq_nil]
    intro r hr
    rw [hbad r hr]
    rfl
  have hsplit : retentionSplit rows rd = (rows, []) := by
    rw [retentionSplit, if_neg (by push_neg; exact ⟨hne, by omega⟩)]
    simp only [hparsed]
    rfl
  refine ⟨hsplit, fun ym => ?_⟩
  rw [archivePartition, hsplit]
  rfl

/-- C8: with `retention_days > 0` and a nonempty history containing at least
one parseable date, retention keeps exactly the rows dated at or after
`cutoff = max(as_of_date) - (retention_days - 1)`, archives exactly the
parseable rows dated before the cutoff, partitioned by their own calendar
month, so no parseable row is lost across active store plus archive; with
`retention_days <= 0` or an empty input it returns the input unchanged. -/
theorem retention_split_spec (rows : List HistRow) (rd : Int)
    (hne : rows ≠ []) (hrd : 0 < rd)
    (hsome : ∃ r ∈ rows, (parseIsoDate r.asOfDate).isSome) :
    (∀ r, r ∈ (retentionSplit rows rd).1 ↔
      ∃ d, parseIsoDate r.asOfDate = some d ∧ r ∈ rows ∧ retentionCutoff rows rd ≤ d)
    ∧ (∀ r, r ∈ (retentionSplit rows rd).2 ↔
      ∃ d, parseIsoDate r.asOfDate = some d ∧ r ∈ rows ∧ d < retentionCutoff rows rd)
    ∧ (∀ r ∈ rows, (parseIsoDate r.asOfDate).isSome →
      r ∈ (retentionSplit rows rd).1 ∨ r ∈ (retentionSplit rows rd).2)
    ∧ (∀ ym r, r ∈ archivePartition rows rd ym ↔
      r ∈ (retentionSplit rows rd).2 ∧ (parseIsoDate r.asOfDate).map yearMonth = some ym)
    ∧ (∀ (rows' : List HistRow) (rd' : Int), rows' = [] ∨ rd' ≤ 0 →
      retentionSplit rows' rd' = (rows', [])) := by
  have hparsed : rows.filterMap
      (fun r => (parseIsoDate r.asOfDate).map (fun d => (r, d))) ≠ [] := by
    obtain ⟨r, hr, hp⟩ := hsome
    obtain ⟨d, hd⟩ := Option.isSome_iff_exists.mp hp
    intro hcon
    have : (r, d) ∈ rows.filterMap
        (fun r => (parseIsoDate r.asOfDate).map (fun d => (r, d))) := by
      exact List.mem_filterMap.mpr ⟨r, hr, by rw [hd]; rfl⟩
    rw [hcon] at this
    exact absurd this (List.not_mem_nil _)
  have hsplit : retentionSplit rows rd =
      (sortRows (((rows.filterMap
          (fun r => (parseIsoDate r.asOfDate).map (fun d => (r, d)))).filter
          (fun p => retentionCutoff rows rd ≤ p.2)).map Prod.fst),
       ((rows.filterMap
          (fun r => (parseIsoDate r.asOfDate).map (fun d => (r, d)))).filter
          (fun p => p.2 < retentionCutoff rows rd)).map Prod.fst) := by
    rw [retentionSplit, if_neg (by push_neg; exact ⟨hne, by omega⟩), if_neg hparsed]
  have hkeep : ∀ r, r ∈ (retentionSplit rows rd).1 ↔
      ∃ d, parseIsoDate r.asOfDate = some d ∧ r ∈ rows ∧ retentionCutoff rows rd ≤ d := by
    intro r
    rw [hsplit]
    constructor
    · intro hmem
      rw [mem_sortRows] at hmem
      obtain ⟨p, hp, rfl⟩ := List.mem_map.mp hmem
      obtain ⟨hpmem, hcut⟩ := List.mem_filter.mp hp
      obtain ⟨r', hr', hf⟩ := List.mem_filterMap.mp hpmem
      obtain ⟨d, hd, heq⟩ := Option.map_eq_some'.mp hf
      cases heq
      exact ⟨d, hd, hr', by simpa using hcut⟩
    · rintro ⟨d, hd, hr, hcut⟩
      rw [mem_sortRows]
      refine List.mem_map.mpr ⟨(r, d), List.mem_filter.mpr
        ⟨List.mem_filterMap.mpr ⟨r, hr, ?_⟩, ?_⟩, rfl⟩
      · rw [hd]; rfl
      · simpa using hcut
  have harch : ∀ r, r ∈ (retentionSplit rows rd).2 ↔
      ∃ d, parseIsoDate r.asOfDate = some d ∧ r ∈ rows ∧ d < retentionCutoff rows rd := by
    intro r
    rw [hsplit]
    constructor
    · intro hmem
      obtain ⟨p, hp, rfl⟩ := List.mem_map.mp hmem
      obtain ⟨hpmem, hcut⟩ := List.mem_filter.mp hp
      obtain ⟨r', hr', hf⟩ := List.mem_filterMap.mp hpmem
      obtain ⟨d, hd, heq⟩ := Option.map_eq_some'.mp hf
      cases heq
      exact ⟨d, hd, hr', by simpa using hcut⟩
    · rintro ⟨d, hd, hr, hcut⟩
      refine List.mem_map.mpr ⟨(r, d), List.mem_filter.mpr
        ⟨List.mem_filterMap.mpr ⟨r, hr, ?_⟩, ?_⟩, rfl⟩
      · rw [hd]; rfl
      · simpa using hcut
  refine ⟨hkeep, harch, ?_, ?_, ?_⟩
  · intro r hr hp
    obtain ⟨d, hd⟩ := Option.isSome_iff_exists.mp hp
    rcases le_or_lt (retentionCutoff rows rd) d with hcut | hcut
    · exact Or.inl ((hkeep r).mpr ⟨d, hd, hr, hcut⟩)
    · exact Or.inr ((harch r).mpr ⟨d, hd, hr, hcut⟩)
  · intro ym r
    rw [archivePartition, mem_sortRows, List.mem_filter]
    constructor
    · rintro ⟨h1, h2⟩
      exact ⟨h1, by simpa using h2⟩
    · rintro ⟨h1, h2⟩
      exact ⟨h1, by simpa using h2⟩
  · intro rows' rd' h
    rcases h with h | h
    · rw [retentionSplit, if_pos (Or.inl h)]
    · rw [retentionSplit, if_pos (Or.inr h)]

/-- C8 witness: a two-row history (dates 1970-01-01 and 1970-03-05) with a
2-day retention, instantiating every hypothesis-bearing part of the claim. -/
theorem retention_split_spec_witness :
    (⟨"1970-03-05", 1, "s", "m", "p"⟩ ∈
      (retentionSplit [⟨"1970-01-01", 1, "s", "m", "p"⟩,
        ⟨"1970-03-05", 1, "s", "m", "p"⟩] 2).1 ↔
      ∃ d, parseIsoDate "1970-03-05" = some d ∧
        (⟨"1970-03-05", 1, "s", "m", "p"⟩ : HistRow) ∈
          [⟨"1970-01-01", 1, "s", "m", "p"⟩, ⟨"1970-03-05", 1, "s", "m", "p"⟩] ∧
        retentionCutoff [⟨"1970-01-01", 1, "s", "m", "p"⟩,
          ⟨"1970-03-05", 1, "s", "m", "p"⟩] 2 ≤ d)
    ∧ ((⟨"1970-01-01", 1, "s", "m", "p"⟩ : HistRow) ∈
      (retentionSplit [⟨"1970-01-01", 1, "s", "m", "p"⟩,
        ⟨"1970-03-05", 1, "s", "m", "p"⟩] 2).1 ∨
      (⟨"1970-01-01", 1, "s", "m", "p"⟩ : HistRow) ∈
      (retentionSplit [⟨"1970-01-01", 1, "s", "m", "p"⟩,
        ⟨"1970-03-05", 1, "s", "m", "p"⟩] 2).2)
    ∧ retentionSplit ([] : List HistRow) 2 = ([], []) := by
  have h := retention_split_spec
    [⟨"1970-01-01", 1, "s", "m", "p"⟩, ⟨"1970-03-05", 1, "s", "m", "p"⟩] 2
    (by decide) (by decide)
    ⟨⟨"1970-01-01", 1, "s", "m", "p"⟩, by decide⟩
  exact ⟨h.1 _, h.2.2.1 _ (by decide) (by decide), h.2.2.2.2 [] 2 (Or.inl rfl)⟩

/-- C10 witness: a singleton history whose date does not parse. -/
theorem retention_all_unparseable_noop_witness :
    retentionSplit [⟨"not-a-date", 1, "sec", "m", "p"⟩] 730 =
      ([⟨"not-a-date", 1, "sec", "m", "p"⟩], [])
    ∧ ∀ ym : Int × Int, archivePartition [⟨"not-a-date", 1, "sec", "m", "p"⟩] 730 ym = [] :=
  retention_all_unparseable_noop [⟨"not-a-date", 1, "sec", "m", "p"⟩] 730
    (by decide) (by decide) (by decide)

/-- C6: the evaluator is total (it is a Lean function) and returns the
neutral result — status Yellow, zero signals, no bounds — on an empty input,
on an input all of whose rows fail to parse, and on an input emptied by
weekday exclusion (the last carrying `weekday_filter_applied = true`). -/
theorem evaluate_neutral_on_empty (cfg : ThresholdsCfg) (rows : List DailyRow)
    (valueType : String) (windowDays : Int) :
    evaluateThresholdsForWindow cfg [] valueType windowDays = neutralResult false
    ∧ ((∀ r ∈ rows, r.asOfDate = none ∨ r.value = none) →
        evaluateThresholdsForWindow cfg rows valueType windowDays = neutralResult false)
    ∧ (cleanRows rows ≠ [] → workingSeries cfg rows = [] →
        evaluateThresholdsForWindow cfg rows valueType windowDays = neutralResult true)
    ∧ (∀ b, (neutralResult b).status = "Yellow" ∧ (neutralResult b).signalCount = 0
        ∧ (neutralResult b).lowerThreshold = none
        ∧ (neutralResult b).upperThreshold = none) := by
  refine ⟨by rw [evaluateThresholdsForWindow, if_pos rfl], ?_, ?_,
    fun b => ⟨rfl, rfl, rfl, rfl⟩⟩
  · intro hbad
    rcases eq_or_ne rows [] with rfl | hne
    · rw [evaluateThresholdsForWindow, if_pos rfl]
    · have hclean : cleanRows rows = [] := by
        rw [cleanRows]
        have : parsedRows rows = [] := by
          rw [parsedRows, List.filterMap_eq_nil_iff]
          intro r hr
          rcases hbad r hr with h | h <;> rcases hd : r.asOfDate <;>
            rcases hv : r.value <;> simp_all
        rw [this]
        rfl
      rw [evaluateThresholdsForWindow, if_neg hne, if_pos hclean]
  · intro hclean hws
    have hne : rows ≠ [] := by
      intro hcon
      apply hclean
      rw [hcon]
      rfl
    have hexcl : (excludedWeekdaysOf cfg).isEmpty = false := by
      rcases h : (excludedWeekdaysOf cfg).isEmpty with _ | _
      · rfl
      · exfalso
        apply hclean
        rw [workingSeries] at hws
        rw [h] at hws
        simpa using hws
    rw [evaluateThresholdsForWindow, if_neg hne, if_neg hclean]
    simp only [hws, if_pos rfl, hexcl]
    rfl

/-- C6 witness: a row set whose single row has an unparseable value, and a
configuration excluding every weekday so that exclusion empties a parseable
one-row series. -/
theorem evaluate_neutral_on_empty_witness :
    evaluateThresholdsForWindow ⟨none, none, none, none⟩ [⟨some 0, none⟩] "count" 7 =
      neutralResult false
    ∧ evaluateThresholdsForWindow
        ⟨some "dynamic",
         some ⟨none, none, none, none, none, none, none, none,
           some [.int 0, .int 1, .int 2, .int 3, .int 4, .int 5, .int 6]⟩,
         none, none⟩
        [⟨some 0, some 1⟩] "count" 7 = neutralResult true := by
  refine ⟨(evaluate_neutral_on_empty ⟨none, none, none, none⟩ [⟨some 0, none⟩]
      "count" 7).2.1 ?_, ?_⟩
  · intro r hr
    rcases List.mem_singleton.mp hr with rfl
    exact Or.inr rfl
  · exact (evaluate_neutral_on_empty
      ⟨some "dynamic",
       some ⟨none, none, none, none, none, none, none, none,
         some [.int 0, .int 1, .int 2, .int 3, .int 4, .int 5, .int 6]⟩,
       none, none⟩
      [⟨some 0, some 1⟩] "count" 7).2.2.1 (by decide) (by decide)

/-- C9: `_safe_float(x) or default` silently replaces a configured 0 (and a
null / unparseable value) of `k`, `z_score_lim` and `percent_drop` by the
defaults 1.0, 2.0 and 0.5 respectively; consequently the effective multiplier
is never 0, and whenever the dynamic rolling-statistics bounds are produced
over a trailing window with nonzero variance they satisfy
`lower ≠ upper` — the degenerate `lower = upper = r_mean` of `k = 0` cannot
occur. -/
theorem dynamic_falsy_param_defaults :
    (∀ d : ℚ, floatOr (some 0) d = d ∧ floatOr none d = d)
    ∧ (∀ (o : Option ℚ) (d : ℚ), d ≠ 0 → floatOr o d ≠ 0)
    ∧ (∀ (cfg : ThresholdsCfg) (rows : List DailyRow) (vt : String) (w : Int)
        (l u : ℝ),
        listVarPop (lastN ((cfg.dynamic.getD emptyDynCfg).window.getD 30).toNat
          ((buildXSeries vt w (workingSeries cfg rows)).map Prod.snd)) ≠ 0 →
        strLower (cfg.mode.getD "static") = "dynamic" →
        (evaluateThresholdsForWindow cfg rows vt w).lowerThreshold = some l →
        (evaluateThresholdsForWindow cfg rows vt w).upperThreshold = some u →
        l ≠ u) := by
  refine ⟨fun d => ⟨rfl, rfl⟩, fun o d hd => floatOr_ne_zero hd, ?_⟩
  intro cfg rows vt w l u hvar hmode hl hu
  rw [evaluateThresholdsForWindow] at hl hu
  by_cases h1 : rows = []
  · rw [if_pos h1] at hl
    exact absurd hl (by simp [neutralResult])
  rw [if_neg h1] at hl hu
  by_cases h2 : cleanRows rows = []
  · rw [if_pos h2] at hl
    exact absurd hl (by simp [neutralResult])
  rw [if_neg h2] at hl hu
  dsimp only at hl hu
  by_cases h3 : workingSeries cfg rows = []
  · rw [if_pos h3] at hl
    exact absurd hl (by simp [neutralResult])
  rw [if_neg h3] at hl hu
  rw [evaluateCore] at hl hu
  dsimp only at hl hu
  rw [if_pos hmode] at hl hu
  dsimp only at hl hu
  rw [rollingBounds] at hl hu
  set dyn := cfg.dynamic.getD emptyDynCfg with hdyn
  set xs := buildXSeries vt w (workingSeries cfg rows) with hxs
  by_cases h4 : dyn.minHistoryPoints.getD (max (dyn.window.getD 30) 10) ≤ (xs.length : Int)
      ∧ 1 ≤ dyn.window.getD 30 ∧ dyn.window.getD 30 ≤ (xs.length : Int)
  · rw [if_pos h4] at hl hu
    dsimp only at hl hu
    set tail := lastN (dyn.window.getD 30).toNat (xs.map Prod.snd) with htail
    have hlval : l = (listMean tail : ℝ) - (floatOr dyn.k 1 : ℝ) * stdPopR tail :=
      (Option.some.inj hl).symm
    have huval : u = (listMean tail : ℝ) + (floatOr dyn.k 1 : ℝ) * stdPopR tail :=
      (Option.some.inj hu).symm
    have hk : ((floatOr dyn.k 1 : ℚ) : ℝ) ≠ 0 := by
      exact_mod_cast floatOr_ne_zero one_ne_zero
    have hstd : stdPopR tail ≠ 0 := (stdPopR_pos hvar).ne'
    have hprod : ((floatOr dyn.k 1 : ℚ) : ℝ) * stdPopR tail ≠ 0 := mul_ne_zero hk hstd
    intro heq
    apply hprod
    rw [hlval, huval] at heq
    linarith
  · rw [if_neg h4] at hl
    exact absurd hl (by simp)

/-- C9 witness: a two-point rate series under a dynamic config with
`window = min_history_points = 2` and `k` absent (defaulted to 1); the
trailing variance is 1 (nonzero), the bounds evaluate to `2 ∓ 1`, and they
differ. -/
theorem dynamic_falsy_param_defaults_witness :
    floatOr (some 0) 1 = 1 ∧ floatOr (some 0) 2 = 2 ∧ floatOr (some 0) (1 / 2) = 1 / 2
    ∧ ((1 : ℝ) ≠ 3) := by
  have hcfg : (evaluateThresholdsForWindow
      ⟨some "dynamic", some ⟨none, none, none, some 2, none, none, some 2, none, none⟩,
        none, none⟩
      [⟨some 0, some 1⟩, ⟨some 1, some 3⟩] "rate" 1).lowerThreshold = some (1 : ℝ)
      ∧ (evaluateThresholdsForWindow
      ⟨some "dynamic", some ⟨none, none, none, some 2, none, none, some 2, none, none⟩,
        none, none⟩
      [⟨some 0, some 1⟩, ⟨some 1, some 3⟩] "rate" 1).upperThreshold = some (3 : ℝ) := by
    refine ⟨?_, ?_⟩ <;>
      rw [evaluateThresholdsForWindow, if_neg (by decide), if_neg (by decide)] <;>
      dsimp only <;>
      rw [if_neg (by decide), evaluateCore] <;>
      dsimp only <;>
      rw [if_pos (by decide)] <;>
      dsimp only <;>
      rw [rollingBounds, if_pos (by refine ⟨by decide, by decide, by decide⟩)] <;>
      dsimp only <;>
      norm_num [workingSeries, cleanRows, parsedRows, excludedWeekdaysOf,
        parseExcludedWeekdays, emptyDynCfg, buildXSeries, rollingAgg, windowSlice,
        listMean, listVarPop, lastN, floatOr, stdPopR, List.insertionSort,
        List.orderedInsert, List.range_succ,
        (by decide : (strLower "rate" == "count") = false)]
  exact ⟨rfl, rfl, rfl,
    dynamic_falsy_param_defaults.2.2
      ⟨some "dynamic", some ⟨none, none, none, some 2, none, none, some 2, none, none⟩,
        none, none⟩
      [⟨some 0, some 1⟩, ⟨some 1, some 3⟩] "rate" 1 _ _
      (by norm_num [workingSeries, cleanRows, parsedRows, excludedWeekdaysOf,
        parseExcludedWeekdays, emptyDynCfg, buildXSeries, rollingAgg, windowSlice,
        listMean, listVarPop, lastN, List.insertionSort, List.orderedInsert,
        List.range_succ, (by decide : (strLower "rate" == "count") = false)])
      (by decide) hcfg.1 hcfg.2⟩

/-- C3 counterexample: with `min_history_points = 1` and `window = 2`
configured, a one-point rolling series has at least `min_history_points`
entries, yet no rolling-statistics bound is computed (pandas
`min_periods = rolling_window` makes the trailing statistics `NaN` when the
series is shorter than `window`) — refuting the claim that the bound is
computed whenever the series has at least `min_history_points` entries. -/
theorem rolling_bound_counterexample :
    ((⟨some "dynamic", some ⟨none, none, none, some 2, none, none, some 1, none, none⟩,
        none, none⟩ : ThresholdsCfg).dynamic.getD emptyDynCfg).minHistoryPoints.getD
      (max (((⟨some "dynamic",
        some ⟨none, none, none, some 2, none, none, some 1, none, none⟩,
        none, none⟩ : ThresholdsCfg).dynamic.getD emptyDynCfg).window.getD 30) 10) ≤
      ((buildXSeries "rate" 1 (workingSeries
        ⟨some "dynamic", some ⟨none, none, none, some 2, none, none, some 1, none, none⟩,
          none, none⟩ [⟨some 0, some 5⟩])).length : Int)
    ∧ (evaluateThresholdsForWindow
        ⟨some "dynamic", some ⟨none, none, none, some 2, none, none, some 1, none, none⟩,
          none, none⟩ [⟨some 0, some 5⟩] "rate" 1).lowerThreshold = none
    ∧ (evaluateThresholdsForWindow
        ⟨some "dynamic", some ⟨none, none, none, some 2, none, none, some 1, none, none⟩,
          none, none⟩ [⟨some 0, some 5⟩] "rate" 1).upperThreshold = none := by
  refine ⟨by decide, ?_, ?_⟩ <;>
  · rw [evaluateThresholdsForWindow, if_neg (by decide), if_neg (by decide)]
    dsimp only
    rw [if_neg (by decide), evaluateCore]
    dsimp only
    rw [if_pos (by decide)]
    dsimp only
    rw [rollingBounds, if_neg (by decide)]

/-- C3 amended: in dynamic mode the rolling-statistics bound is computed
whenever the rolling series has at least `min_history_points` entries *and*
at least `window` entries with `window ≥ 1` (the two length conditions
coincide under the default `min_history_points = max(window, 10)`); the bound
is then `r_mean ∓ k·r_std` with `r_mean` the mean and `r_std` the population
(divisor `N`) standard deviation of the trailing `window` entries of the
rolling series, and `rolling_points_used = window`. -/
theorem rolling_bounds_formula (cfg : ThresholdsCfg) (rows : List DailyRow)
    (vt : String) (w : Int)
    (hmode : strLower (cfg.mode.getD "static") = "dynamic")
    (hrows : rows ≠ []) (hclean : cleanRows rows ≠ [])
    (hws : workingSeries cfg rows ≠ [])
    (hmh : (cfg.dynamic.getD emptyDynCfg).minHistoryPoints.getD
        (max ((cfg.dynamic.getD emptyDynCfg).window.getD 30) 10) ≤
      ((buildXSeries vt w (workingSeries cfg rows)).length : Int))
    (hw1 : 1 ≤ (cfg.dynamic.getD emptyDynCfg).window.getD 30)
    (hwlen : (cfg.dynamic.getD emptyDynCfg).window.getD 30 ≤
      ((buildXSeries vt w (workingSeries cfg rows)).length : Int)) :
    (evaluateThresholdsForWindow cfg rows vt w).lowerThreshold =
      some ((listMean (lastN ((cfg.dynamic.getD emptyDynCfg).window.getD 30).toNat
          ((buildXSeries vt w (workingSeries cfg rows)).map Prod.snd)) : ℝ)
        - (floatOr (cfg.dynamic.getD emptyDynCfg).k 1 : ℝ)
          * stdPopR (lastN ((cfg.dynamic.getD emptyDynCfg).window.getD 30).toNat
            ((buildXSeries vt w (workingSeries cfg rows)).map Prod.snd)))
    ∧ (evaluateThresholdsForWindow cfg rows vt w).upperThreshold =
      some ((listMean (lastN ((cfg.dynamic.getD emptyDynCfg).window.getD 30).toNat
          ((buildXSeries vt w (workingSeries cfg rows)).map Prod.snd)) : ℝ)
        + (floatOr (cfg.dynamic.getD emptyDynCfg).k 1 : ℝ)
          * stdPopR (lastN ((cfg.dynamic.getD emptyDynCfg).window.getD 30).toNat
            ((buildXSeries vt w (workingSeries cfg rows)).map Prod.snd)))
    ∧ (evaluateThresholdsForWindow cfg rows vt w).rollingPointsUsed =
      ((cfg.dynamic.getD emptyDynCfg).window.getD 30).toNat := by
  rw [evaluateThresholdsForWindow, if_neg hrows, if_neg hclean]
  dsimp only
  rw [if_neg hws, evaluateCore]
  dsimp only
  rw [if_pos hmode]
  dsimp only
  rw [rollingBounds, if_pos ⟨hmh, hw1, hwlen⟩]
  dsimp only
  refine ⟨rfl, rfl, ?_⟩
  rw [if_pos ⟨hmh, hw1, hwlen⟩]
  have : ((cfg.dynamic.getD emptyDynCfg).window.getD 30).toNat ≤
      (buildXSeries vt w (workingSeries cfg rows)).length := by omega
  omega

/-- C3 amended witness: `window = min_history_points = 2`, `k = 3`, on a
two-point rate series; the bound is computed and uses exactly 2 trailing
points. -/
theorem rolling_bounds_formula_witness :
    (evaluateThresholdsForWindow
      ⟨some "dynamic", some ⟨none, none, some 3, some 2, none, none, some 2, none, none⟩,
        none, none⟩
      [⟨some 0, some 1⟩, ⟨some 1, some 3⟩] "rate" 1).rollingPointsUsed = 2 :=
  (rolling_bounds_formula
    ⟨some "dynamic", some ⟨none, none, some 3, some 2, none, none, some 2, none, none⟩,
      none, none⟩
    [⟨some 0, some 1⟩, ⟨some 1, some 3⟩] "rate" 1
    (by decide) (by decide) (by decide) (by decide)
    (by decide) (by decide) (by decide)).2.2

/-- C2 counterexample: on the gapped count series (day 0 ↦ 10, day 5 ↦ 20)
with `window_days = 2`, the evaluator's rolling series is `[10, 30]` — its
latest entry sums the last 2 *observations* — while the sum over the 2
calendar days ending at day 5 (missing days = 0) is `20`; `30 ≠ 20`, so the
evaluator's rolling entries do not follow the claimed calendar-day
semantics. -/
theorem evaluator_rolling_not_calendar_counterexample :
    (buildXSeries "count" 2 [((0 : Int), (10 : ℚ)), (5, 20)]).map Prod.snd = [10, 30]
    ∧ calendarWindowSum 2 [((0 : Int), (10 : ℚ)), (5, 20)] 5 = 20
    ∧ (30 : ℚ) ≠ 20 := by
  refine ⟨?_, ?_, by norm_num⟩
  · norm_num [buildXSeries, rollingAgg, windowSlice, List.range_succ,
      (by decide : (strLower "count" == "count") = true)]
  · norm_num [calendarWindowSum]

/-- C2 amended: the snapshot aggregate of
`build_windowed_serving_snapshot` does follow the claimed calendar semantics —
over rows dated at most `latest` and a nonempty window range, the count
aggregate is the sum over the rows of the `w` calendar days ending at
`latest` (absent days contributing nothing) and the rate aggregate is the
mean over the observations present there; the *evaluator's* rolling series,
however, is positional: its values are pandas' rolling aggregate over
observations, entry `i` being the sum (count) / mean (rate) of the trailing
`min(i+1, w)` observations irrespective of calendar gaps. -/
theorem window_aggregate_semantics :
    (∀ (w : Int) (g : List (Int × ℚ)) (latest : Int),
      (∀ p ∈ g, p.1 ≤ latest) →
      g.filter (fun p => latest - (w - 1) ≤ p.1) ≠ [] →
      snapshotAggregate "count" w (g.map (fun p => (p.1, some p.2))) latest =
        some (calendarWindowSum w g latest))
    ∧ (∀ (vt : String) (w : Int) (g : List (Int × ℚ)) (latest : Int),
      vt ≠ "count" →
      (∀ p ∈ g, p.1 ≤ latest) →
      g.filter (fun p => latest - (w - 1) ≤ p.1) ≠ [] →
      snapshotAggregate vt w (g.map (fun p => (p.1, some p.2))) latest =
        some (calendarWindowMean w g latest))
    ∧ (∀ (vt : String) (w : Int) (rows : List (Int × ℚ)),
      (buildXSeries vt w rows).map Prod.snd =
        rollingAgg (strLower vt == "count") w.toNat (rows.map Prod.snd))
    ∧ (∀ (c : Bool) (w : Nat) (l : List ℚ) (i : Nat), i < l.length →
      (rollingAgg c w l)[i]? =
        some (if c then ((l.take (i + 1)).drop (i + 1 - w)).sum
          else listMean ((l.take (i + 1)).drop (i + 1 - w)))) := by
  have hfilter : ∀ (w : Int) (g : List (Int × ℚ)) (latest : Int),
      (∀ p ∈ g, p.1 ≤ latest) →
      (g.map (fun p => (p.1, some p.2))).filter
          (fun p => latest - (w - 1) ≤ p.1) =
        (g.filter (fun p => latest - (w - 1) ≤ p.1 ∧ p.1 ≤ latest)).map
          (fun p => (p.1, some p.2)) := by
    intro w g latest hle
    rw [List.filter_map]
    congr 1
    apply List.filter_congr
    intro p hp
    simp [hle p hp]
  constructor
  · intro w g latest hle hnil
    rw [snapshotAggregate]
    rw [hfilter w g latest hle]
    rw [if_neg (by
      intro hcon
      apply hnil
      have hsub : g.filter (fun p => latest - (w - 1) ≤ p.1 ∧ p.1 ≤ latest) =
          g.filter (fun p => latest - (w - 1) ≤ p.1) := by
        apply List.filter_congr
        intro p hp
        simp [hle p hp]
      rw [hsub] at hcon
      exact List.map_eq_nil_iff.mp hcon)]
    rw [if_pos rfl]
    rw [calendarWindowSum]
    congr 1
    rw [List.map_map]
    rfl
  refine ⟨?_, ?_, ?_⟩
  · intro vt w g latest hvt hle hnil
    rw [snapshotAggregate]
    rw [hfilter w g latest hle]
    rw [if_neg (by
      intro hcon
      apply hnil
      have hsub : g.filter (fun p => latest - (w - 1) ≤ p.1 ∧ p.1 ≤ latest) =
          g.filter (fun p => latest - (w - 1) ≤ p.1) := by
        apply List.filter_congr
        intro p hp
        simp [hle p hp]
      rw [hsub] at hcon
      exact List.map_eq_nil_iff.mp hcon)]
    rw [if_neg hvt, calendarWindowMean]
    congr 1
    rw [List.filterMap_map]
    have hsub : g.filter (fun p => latest - (w - 1) ≤ p.1 ∧ p.1 ≤ latest) =
        g.filter (fun p => latest - (w - 1) ≤ p.1) := by
      apply List.filter_congr
      intro p hp
      simp [hle p hp]
    rw [hsub]
    have hcomp : (Prod.snd ∘ fun p : Int × ℚ => (p.1, some p.2)) = some ∘ Prod.snd := rfl
    rw [hcomp, List.filterMap_eq_map]
  · intro vt w rows
    rw [buildXSeries]
    apply List.map_snd_zip
    rw [rollingAgg_length, List.length_map, List.length_map]
  · intro c w l i hi
    rw [rollingAgg, List.getElem?_map, List.getElem?_range hi]
    rfl

/-- C2 amended witness: the gapped two-point series — the snapshot count
aggregate over the 2 calendar days ending at day 5 is 20, the snapshot rate
aggregate is the mean 20 of the single present observation, and the
evaluator's positional entry at index 1 is the 30 of the trailing two
observations. -/
theorem window_aggregate_semantics_witness :
    snapshotAggregate "count" 2
        ([((0 : Int), (10 : ℚ)), (5, 20)].map (fun p => (p.1, some p.2))) 5 =
      some (calendarWindowSum 2 [((0 : Int), (10 : ℚ)), (5, 20)] 5)
    ∧ snapshotAggregate "rate" 2
        ([((0 : Int), (10 : ℚ)), (5, 20)].map (fun p => (p.1, some p.2))) 5 =
      some (calendarWindowMean 2 [((0 : Int), (10 : ℚ)), (5, 20)] 5)
    ∧ (rollingAgg true 2 [(10 : ℚ), 20])[1]? =
      some (if true then (([(10 : ℚ), 20].take 2).drop 0).sum
        else listMean (([(10 : ℚ), 20].take 2).drop 0)) :=
  ⟨window_aggregate_semantics.1 2 [((0 : Int), (10 : ℚ)), (5, 20)] 5
      (by decide) (by decide),
   window_aggregate_semantics.2.1 "rate" 2 [((0 : Int), (10 : ℚ)), (5, 20)] 5
      (by decide) (by decide) (by decide),
   window_aggregate_semantics.2.2.2 true 2 [(10 : ℚ), 20] 1 (by decide)⟩

/-- C5 counterexample: a *static*-mode metric whose configuration carries
`exclude_weekdays: ["sun"]` in its dynamic block.  On the series
(Sunday 1970-01-04 ↦ 100, Monday 1970-01-05 ↦ 1) with `window_days = 2` and a
static upper bound of 50, the code evaluates the weekday-filtered series
(x_t = 1, no signal, Green, `weekday_filter_applied = true`), whereas the
same metric with no exclusion set fires `U` (x_t = 101 ≥ 50) and goes Red —
so exclusion demonstrably applies in static mode, contradicting
"dynamic mode only". -/
theorem static_weekday_exclusion_counterexample :
    (evaluateThresholdsForWindow
      ⟨some "static",
       some ⟨none, none, none, none, none, none, none, none, some [.str "sun"]⟩,
       some ⟨none, none, some 50⟩, none⟩
      [⟨some 3, some 100⟩, ⟨some 4, some 1⟩] "count" 2).signals = []
    ∧ (evaluateThresholdsForWindow
      ⟨some "static",
       some ⟨none, none, none, none, none, none, none, none, some [.str "sun"]⟩,
       some ⟨none, none, some 50⟩, none⟩
      [⟨some 3, some 100⟩, ⟨some 4, some 1⟩] "count" 2).status = "Green"
    ∧ (evaluateThresholdsForWindow
      ⟨some "static",
       some ⟨none, none, none, none, none, none, none, none, some [.str "sun"]⟩,
       some ⟨none, none, some 50⟩, none⟩
      [⟨some 3, some 100⟩, ⟨some 4, some 1⟩] "count" 2).weekdayFilterApplied = true
    ∧ (evaluateThresholdsForWindow
      ⟨some "static",
       some ⟨none, none, none, none, none, none, none, none, none⟩,
       some ⟨none, none, some 50⟩, none⟩
      [⟨some 3, some 100⟩, ⟨some 4, some 1⟩] "count" 2).signals = ["U"]
    ∧ (evaluateThresholdsForWindow
      ⟨some "static",
       some ⟨none, none, none, none, none, none, none, none, none⟩,
       some ⟨none, none, some 50⟩, none⟩
      [⟨some 3, some 100⟩, ⟨some 4, some 1⟩] "count" 2).status = "Red" := by
  refine ⟨?_, ?_, ?_, ?_, ?_⟩ <;>
    rw [evaluateThresholdsForWindow, if_neg (by decide), if_neg (by decide)] <;>
    dsimp only <;>
    rw [if_neg (by decide), evaluateCore] <;>
    dsimp only <;>
    rw [if_neg (by decide)] <;>
    dsimp only <;>
    norm_num [workingSeries, cleanRows, parsedRows, buildXSeries, rollingAgg,
      windowSlice, listMean, lastN, staticPolicyOf, statusFromSignalCount,
      dayOfWeek, List.insertionSort, List.orderedInsert, List.range_succ,
      (by decide : excludedWeekdaysOf
        ⟨some "static",
         some ⟨none, none, none, none, none, none, none, none, some [.str "sun"]⟩,
         some ⟨none, none, some 50⟩, none⟩ = [6]),
      (by decide : excludedWeekdaysOf
        ⟨some "static",
         some ⟨none, none, none, none, none, none, none, none, none⟩,
         some ⟨none, none, some 50⟩, none⟩ = []),
      (by decide : (strLower "count" == "count") = true),
      (by decide : directionAllows "both" "U" = true),
      (by decide : directionAllows "both" "L" = true)]

/-- C5 amended: weekday exclusion is applied in every mode — the evaluator
reads `exclude_weekdays` from the dynamic block before branching on the mode,
so whenever that set is nonempty the working series (from which both static
and dynamic evaluation proceed) contains no excluded-weekday entry. -/
theorem weekday_exclusion_any_mode :
    (∀ (cfg : ThresholdsCfg) (rows : List DailyRow),
      ∀ p ∈ workingSeries cfg rows,
        (excludedWeekdaysOf cfg).contains (dayOfWeek p.1) = false)
    ∧ (∀ (cfg : ThresholdsCfg) (rows : List DailyRow) (vt : String) (w : Int),
      rows ≠ [] → cleanRows rows ≠ [] → workingSeries cfg rows ≠ [] →
      evaluateThresholdsForWindow cfg rows vt w =
        evaluateCore cfg vt w (workingSeries cfg rows)
          (!(excludedWeekdaysOf cfg).isEmpty)) := by
  constructor
  · intro cfg rows p hp
    rw [workingSeries] at hp
    rcases hexcl : (excludedWeekdaysOf cfg).isEmpty with _ | _
    · rw [hexcl] at hp
      simp only [Bool.false_eq_true, if_false] at hp
      have := (List.mem_filter.mp hp).2
      simpa using this
    · rw [hexcl] at hp
      simp only [if_true] at hp
      rcases h : excludedWeekdaysOf cfg with _ | _
      · rfl
      · rw [List.isEmpty_iff] at hexcl
        rw [hexcl] at h
        exact absurd h.symm (List.cons_ne_nil _ _)
  · intro cfg rows vt w h1 h2 h3
    rw [evaluateThresholdsForWindow, if_neg h1, if_neg h2]
    dsimp only
    rw [if_neg h3]

/-- C5 amended witness: under the static-mode configuration excluding
Sundays, the surviving working-series entry (Monday, day 4) is not an
excluded weekday, and the evaluator result is the core evaluation of the
filtered series with the filter flag set. -/
theorem weekday_exclusion_any_mode_witness :
    (excludedWeekdaysOf
      ⟨some "static",
       some ⟨none, none, none, none, none, none, none, none, some [.str "sun"]⟩,
       some ⟨none, none, some 50⟩, none⟩).contains (dayOfWeek (4 : Int)) = false
    ∧ evaluateThresholdsForWindow
        ⟨some "static",
         some ⟨none, none, none, none, none, none, none, none, some [.str "sun"]⟩,
         some ⟨none, none, some 50⟩, none⟩
        [⟨some 3, some 100⟩, ⟨some 4, some 1⟩] "count" 2 =
      evaluateCore
        ⟨some "static",
         some ⟨none, none, none, none, none, none, none, none, some [.str "sun"]⟩,
         some ⟨none, none, some 50⟩, none⟩ "count" 2
        (workingSeries
          ⟨some "static",
           some ⟨none, none, none, none, none, none, none, none, some [.str "sun"]⟩,
           some ⟨none, none, some 50⟩, none⟩
          [⟨some 3, some 100⟩, ⟨some 4, some 1⟩])
        (!(excludedWeekdaysOf
          ⟨some "static",
           some ⟨none, none, none, none, none, none, none, none, some [.str "sun"]⟩,
           some ⟨none, none, some 50⟩, none⟩).isEmpty) :=
  ⟨weekday_exclusion_any_mode.1
      ⟨some "static",
       some ⟨none, none, none, none, none, none, none, none, some [.str "sun"]⟩,
       some ⟨none, none, some 50⟩, none⟩
      [⟨some 3, some 100⟩, ⟨some 4, some 1⟩] ((4 : Int), (1 : ℚ)) (by decide),
   weekday_exclusion_any_mode.2
      ⟨some "static",
       some ⟨none, none, none, none, none, none, none, none, some [.str "sun"]⟩,
       some ⟨none, none, some 50⟩, none⟩
      [⟨some 3, some 100⟩, ⟨some 4, some 1⟩] "count" 2
      (by decide) (by decide) (by decide)⟩

/-- For a constant rate series in dynamic mode without weekday exclusion,
whenever the rolling-statistics bound is computed it collapses to
`lower = upper = v`, and both boundary-inclusive comparisons fire `L` and `U`
(when enabled and direction-permitted). -/
lemma constant_rate_series_eval (cfg : ThresholdsCfg)
    (rows : List DailyRow) (vt : String) (w : Int) (v : ℚ)
    (hmode : strLower (cfg.mode.getD "static") = "dynamic")
    (hvt : (strLower vt == "count") = false)
    (hw : 1 ≤ w)
    (hrows : rows ≠ [])
    (hval : ∀ r ∈ rows, r.asOfDate.isSome ∧ r.value = some v)
    (hexcl : (cfg.dynamic.getD emptyDynCfg).excludeWeekdays = none)
    (hL : (effSignalsEnabled (cfg.dynamic.getD emptyDynCfg)).contains "L" = true)
    (hU : (effSignalsEnabled (cfg.dynamic.getD emptyDynCfg)).contains "U" = true)
    (hdL : directionAllows
      ((cfg.dynamic.getD emptyDynCfg).direction.getD "both") "L" = true)
    (hdU : directionAllows
      ((cfg.dynamic.getD emptyDynCfg).direction.getD "both") "U" = true)
    (hw1 : 1 ≤ (cfg.dynamic.getD emptyDynCfg).window.getD 30)
    (hmh : (cfg.dynamic.getD emptyDynCfg).minHistoryPoints.getD
        (max ((cfg.dynamic.getD emptyDynCfg).window.getD 30) 10) ≤
      ((cleanRows rows).length : Int))
    (hwlen : (cfg.dynamic.getD emptyDynCfg).window.getD 30 ≤
      ((cleanRows rows).length : Int)) :
    (evaluateThresholdsForWindow cfg rows vt w).lowerThreshold = some ((v : ℚ) : ℝ)
    ∧ (evaluateThresholdsForWindow cfg rows vt w).upperThreshold = some ((v : ℚ) : ℝ)
    ∧ "L" ∈ (evaluateThresholdsForWindow cfg rows vt w).signals
    ∧ "U" ∈ (evaluateThresholdsForWindow cfg rows vt w).signals := by
  have hexcl0 : excludedWeekdaysOf cfg = [] := by
    rw [excludedWeekdaysOf, hexcl]
    rfl
  have hws : workingSeries cfg rows = cleanRows rows := by
    rw [workingSeries, hexcl0]
    rfl
  have hclean_len : 1 ≤ (cleanRows rows).length := by omega
  have hclean_ne : cleanRows rows ≠ [] := by
    intro hcon
    rw [hcon] at hclean_len
    simp at hclean_len
  have hws_ne : workingSeries cfg rows ≠ [] := by
    rw [hws]
    exact hclean_ne
  have hsnd : ∀ p ∈ cleanRows rows, p.2 = v :=
    cleanRows_snd_const (fun r hr => (hval r hr).2)
  have hxsv : ∀ p ∈ buildXSeries vt w (cleanRows rows), p.2 = v :=
    buildXSeries_snd_const hvt hw hsnd
  have hxslen : (buildXSeries vt w (cleanRows rows)).length = (cleanRows rows).length :=
    buildXSeries_length vt w (cleanRows rows)
  have hxs_ne : buildXSeries vt w (cleanRows rows) ≠ [] := by
    intro hcon
    apply hclean_ne
    rw [← List.length_eq_zero, ← hxslen, hcon]
    rfl
  have hxt : ((buildXSeries vt w (cleanRows rows)).getLast?.getD ((0 : Int), (0 : ℚ))).2 = v :=
    hxsv _ (getLastD_mem hxs_ne _)
  have htail_mem : ∀ x ∈ lastN ((cfg.dynamic.getD emptyDynCfg).window.getD 30).toNat
      ((buildXSeries vt w (cleanRows rows)).map Prod.snd), x = v := by
    intro x hx
    have hx' := lastN_subset x hx
    rcases List.mem_map.mp hx' with ⟨p, hp, rfl⟩
    exact hxsv p hp
  have htail_ne : lastN ((cfg.dynamic.getD emptyDynCfg).window.getD 30).toNat
      ((buildXSeries vt w (cleanRows rows)).map Prod.snd) ≠ [] := by
    apply lastN_ne_nil
    · omega
    · rw [List.length_map, hxslen]
      omega
  have hmean := listMean_const htail_mem htail_ne
  have hstd := stdPopR_of_var_zero (listVarPop_const htail_mem)
  have hguard : (cfg.dynamic.getD emptyDynCfg).minHistoryPoints.getD
      (max ((cfg.dynamic.getD emptyDynCfg).window.getD 30) 10) ≤
      ((buildXSeries vt w (cleanRows rows)).length : Int) ∧
      1 ≤ (cfg.dynamic.getD emptyDynCfg).window.getD 30 ∧
      (cfg.dynamic.getD emptyDynCfg).window.getD 30 ≤
        ((buildXSeries vt w (cleanRows rows)).length : Int) := by
    rw [hxslen]
    exact ⟨hmh, hw1, hwlen⟩
  have hbounds : rollingBounds (floatOr (cfg.dynamic.getD emptyDynCfg).k 1)
      ((cfg.dynamic.getD emptyDynCfg).window.getD 30)
      ((cfg.dynamic.getD emptyDynCfg).minHistoryPoints.getD
        (max ((cfg.dynamic.getD emptyDynCfg).window.getD 30) 10))
      (buildXSeries vt w (cleanRows rows)) = (some ((v : ℚ) : ℝ), some ((v : ℚ) : ℝ)) := by
    rw [rollingBounds, if_pos hguard]
    dsimp only
    rw [hmean, hstd]
    norm_num
  rw [evaluateThresholdsForWindow, if_neg hrows, if_neg hclean_ne]
  dsimp only
  rw [if_neg hws_ne, hws, evaluateCore]
  dsimp only
  rw [if_pos hmode]
  dsimp only
  rw [hbounds]
  dsimp only
  refine ⟨rfl, rfl, ?_, ?_⟩
  · rw [if_pos ⟨hL, hdL, le_of_eq (congrArg Rat.cast hxt)⟩]
    simp
  · rw [if_pos ⟨hL, hdL, le_of_eq (congrArg Rat.cast hxt)⟩,
      if_pos ⟨hU, hdU, le_of_eq (congrArg Rat.cast hxt).symm⟩]
    simp

/-- C1 counterexample: the constant rate series 5, 5, 5 (days 0..2) under a
dynamic config with `window = min_history_points = 3` and default `k = 1 > 0`.
The bound is computed and collapses to `lower = upper = 5`, but — the
comparisons being `<=` / `>=` — *both* signals `L` and `U` fire, refuting the
claim that neither fires when `x_t` equals the bounds. -/
theorem constant_series_signals_counterexample :
    (evaluateThresholdsForWindow
      ⟨some "dynamic", some ⟨none, none, none, some 3, none, none, some 3, none, none⟩,
        none, none⟩
      [⟨some 0, some 5⟩, ⟨some 1, some 5⟩, ⟨some 2, some 5⟩]
      "rate" 7).lowerThreshold = some ((5 : ℚ) : ℝ)
    ∧ (evaluateThresholdsForWindow
      ⟨some "dynamic", some ⟨none, none, none, some 3, none, none, some 3, none, none⟩,
        none, none⟩
      [⟨some 0, some 5⟩, ⟨some 1, some 5⟩, ⟨some 2, some 5⟩]
      "rate" 7).upperThreshold = some ((5 : ℚ) : ℝ)
    ∧ "L" ∈ (evaluateThresholdsForWindow
      ⟨some "dynamic", some ⟨none, none, none, some 3, none, none, some 3, none, none⟩,
        none, none⟩
      [⟨some 0, some 5⟩, ⟨some 1, some 5⟩, ⟨some 2, some 5⟩]
      "rate" 7).signals
    ∧ "U" ∈ (evaluateThresholdsForWindow
      ⟨some "dynamic", some ⟨none, none, none, some 3, none, none, some 3, none, none⟩,
        none, none⟩
      [⟨some 0, some 5⟩, ⟨some 1, some 5⟩, ⟨some 2, some 5⟩]
      "rate" 7).signals :=
  constant_rate_series_eval
    ⟨some "dynamic", some ⟨none, none, none, some 3, none, none, some 3, none, none⟩,
      none, none⟩
    [⟨some 0, some 5⟩, ⟨some 1, some 5⟩, ⟨some 2, some 5⟩] "rate" 7 5
    (by decide) (by decide) (by decide) (by decide) (by decide) (by decide)
    (by decide) (by decide) (by decide) (by decide) (by decide) (by decide)
    (by decide)

/-- C1 amended: for every *rate*-type daily series of constant value `v`
(count-type rolling sums are not the constant `v`), in dynamic mode without
weekday exclusion, whenever the rolling-statistics bound is computed (at
least `min_history_points` and at least `window ≥ 1` points of history) it
collapses to `lower = upper = v`; and since the comparisons are inclusive
(`x_t <= lower`, `x_t >= upper`), *both* signals `L` and `U` fire whenever
enabled and direction-permitted — not neither. -/
theorem constant_series_inclusive_bounds (cfg : ThresholdsCfg)
    (rows : List DailyRow) (vt : String) (w : Int) (v : ℚ)
    (hmode : strLower (cfg.mode.getD "static") = "dynamic")
    (hvt : (strLower vt == "count") = false)
    (hw : 1 ≤ w)
    (hrows : rows ≠ [])
    (hval : ∀ r ∈ rows, r.asOfDate.isSome ∧ r.value = some v)
    (hexcl : (cfg.dynamic.getD emptyDynCfg).excludeWeekdays = none)
    (hL : (effSignalsEnabled (cfg.dynamic.getD emptyDynCfg)).contains "L" = true)
    (hU : (effSignalsEnabled (cfg.dynamic.getD emptyDynCfg)).contains "U" = true)
    (hdL : directionAllows
      ((cfg.dynamic.getD emptyDynCfg).direction.getD "both") "L" = true)
    (hdU : directionAllows
      ((cfg.dynamic.getD emptyDynCfg).direction.getD "both") "U" = true)
    (hw1 : 1 ≤ (cfg.dynamic.getD emptyDynCfg).window.getD 30)
    (hmh : (cfg.dynamic.getD emptyDynCfg).minHistoryPoints.getD
        (max ((cfg.dynamic.getD emptyDynCfg).window.getD 30) 10) ≤
      ((cleanRows rows).length : Int))
    (hwlen : (cfg.dynamic.getD emptyDynCfg).window.getD 30 ≤
      ((cleanRows rows).length : Int)) :
    (evaluateThresholdsForWindow cfg rows vt w).lowerThreshold = some ((v : ℚ) : ℝ)
    ∧ (evaluateThresholdsForWindow cfg rows vt w).upperThreshold = some ((v : ℚ) : ℝ)
    ∧ "L" ∈ (evaluateThresholdsForWindow cfg rows vt w).signals
    ∧ "U" ∈ (evaluateThresholdsForWindow cfg rows vt w).signals :=
  constant_rate_series_eval cfg rows vt w v hmode hvt hw hrows hval hexcl
    hL hU hdL hdU hw1 hmh hwlen

/-- C1 amended witness: a constant rate series of value 7 over four days with
`window = 2`, `min_history_points = 4`. -/
theorem constant_series_inclusive_bounds_witness :
    (evaluateThresholdsForWindow
      ⟨some "dynamic", some ⟨none, none, none, some 2, none, none, some 4, none, none⟩,
        none, none⟩
      [⟨some 0, some 7⟩, ⟨some 1, some 7⟩, ⟨some 2, some 7⟩, ⟨some 3, some 7⟩]
      "rate" 3).lowerThreshold = some ((7 : ℚ) : ℝ)
    ∧ (evaluateThresholdsForWindow
      ⟨some "dynamic", some ⟨none, none, none, some 2, none, none, some 4, none, none⟩,
        none, none⟩
      [⟨some 0, some 7⟩, ⟨some 1, some 7⟩, ⟨some 2, some 7⟩, ⟨some 3, some 7⟩]
      "rate" 3).upperThreshold = some ((7 : ℚ) : ℝ)
    ∧ "L" ∈ (evaluateThresholdsForWindow
      ⟨some "dynamic", some ⟨none, none, none, some 2, none, none, some 4, none, none⟩,
        none, none⟩
      [⟨some 0, some 7⟩, ⟨some 1, some 7⟩, ⟨some 2, some 7⟩, ⟨some 3, some 7⟩]
      "rate" 3).signals
    ∧ "U" ∈ (evaluateThresholdsForWindow
      ⟨some "dynamic", some ⟨none, none, none, some 2, none, none, some 4, none, none⟩,
        none, none⟩
      [⟨some 0, some 7⟩, ⟨some 1, some 7⟩, ⟨some 2, some 7⟩, ⟨some 3, some 7⟩]
      "rate" 3).signals :=
  constant_series_inclusive_bounds
    ⟨some "dynamic", some ⟨none, none, none, some 2, none, none, some 4, none, none⟩,
      none, none⟩
    [⟨some 0, some 7⟩, ⟨some 1, some 7⟩, ⟨some 2, some 7⟩, ⟨some 3, some 7⟩]
    "rate" 3 7
    (by decide) (by decide) (by decide) (by decide) (by decide) (by decide)
    (by decide) (by decide) (by decide) (by decide) (by decide) (by decide)
    (by decide)

/-! ### Order facts for the history sort comparison -/

lemma lexComb_total {γ : Type} [LinearOrder γ] (f : HistRow → γ)
    (inner : HistRow → HistRow → Bool)
    (htot : ∀ a b, inner a b = true ∨ inner b a = true) :
    ∀ a b, lexComb f inner a b = true ∨ lexComb f inner b a = true := by
  intro a b
  rw [lexComb, lexComb]
  by_cases h : f a = f b
  · rw [if_pos h, if_pos h.symm]
    exact htot a b
  · rw [if_neg h, if_neg (Ne.symm h)]
    rcases lt_or_gt_of_ne h with hlt | hgt
    · exact Or.inl (decide_eq_true hlt)
    · exact Or.inr (decide_eq_true hgt)

lemma lexComb_trans {γ : Type} [LinearOrder γ] (f : HistRow → γ)
    (inner : HistRow → HistRow → Bool)
    (htr : ∀ a b c, inner a b = true → inner b c = true → inner a c = true) :
    ∀ a b c, lexComb f inner a b = true → lexComb f inner b c = true →
      lexComb f inner a c = true := by
  intro a b c hab hbc
  rw [lexComb] at hab hbc ⊢
  by_cases h1 : f a = f b <;> by_cases h2 : f b = f c
  · rw [if_pos h1] at hab
    rw [if_pos h2] at hbc
    rw [if_pos (h1.trans h2)]
    exact htr a b c hab hbc
  · rw [if_neg h2] at hbc
    have hlt : f b < f c := of_decide_eq_true hbc
    rw [if_neg (by rw [h1]; exact hlt.ne)]
    exact decide_eq_true (by rw [h1]; exact hlt)
  · rw [if_neg h1] at hab
    have hlt : f a < f b := of_decide_eq_true hab
    rw [if_neg (by rw [← h2]; exact hlt.ne)]
    exact decide_eq_true (by rw [← h2]; exact hlt)
  · rw [if_neg h1] at hab
    rw [if_neg h2] at hbc
    have hlt : f a < f c := (of_decide_eq_true hab).trans (of_decide_eq_true hbc)
    rw [if_neg hlt.ne]
    exact decide_eq_true hlt

lemma lexComb_both {γ : Type} [LinearOrder γ] {f : HistRow → γ}
    {inner : HistRow → HistRow → Bool} {a b : HistRow}
    (hab : lexComb f inner a b = true) (hba : lexComb f inner b a = true) :
    f a = f b ∧ inner a b = true ∧ inner b a = true := by
  rw [lexComb] at hab hba
  by_cases h : f a = f b
  · rw [if_pos h] at hab
    rw [if_pos h.symm] at hba
    exact ⟨h, hab, hba⟩
  · rw [if_neg h] at hab
    rw [if_neg (Ne.symm h)] at hba
    exact absurd (of_decide_eq_true hab) (not_lt_of_gt (of_decide_eq_true hba))

instance : IsTotal HistRow rowLe := by
  constructor
  intro a b
  apply lexComb_total
  intro a b
  apply lexComb_total
  intro a b
  apply lexComb_total
  intro a b
  rcases le_total a.windowDays b.windowDays with h | h
  · exact Or.inl (decide_eq_true h)
  · exact Or.inr (decide_eq_true h)

instance : IsTrans HistRow rowLe := by
  constructor
  intro a b c
  apply lexComb_trans
  intro a b c
  apply lexComb_trans
  intro a b c
  apply lexComb_trans
  intro a b c hab hbc
  exact decide_eq_true ((of_decide_eq_true hab).trans (of_decide_eq_true hbc))

/-- Mutually comparable rows share the natural key: the sort columns are a
permutation of the natural-key columns. -/
lemma rowLe_both {a b : HistRow} (hab : rowLe a b) (hba : rowLe b a) :
    natKey a = natKey b := by
  rw [rowLe, rowSortLe] at hab hba
  obtain ⟨h1, hab, hba⟩ := lexComb_both hab hba
  obtain ⟨h2, hab, hba⟩ := lexComb_both hab hba
  obtain ⟨h3, hab, hba⟩ := lexComb_both hab hba
  have h4 : a.windowDays = b.windowDays :=
    le_antisymm (of_decide_eq_true hab) (of_decide_eq_true hba)
  rw [natKey, natKey, h1, h2, h3, h4]

lemma sorted_sortRows (l : List HistRow) : List.Sorted rowLe (sortRows l) :=
  List.sorted_insertionSort rowLe l

/-- Two sorted lists with the same elements and pairwise-distinct natural
keys coincide. -/
lemma eq_of_perm_sorted_nodupKeys :
    ∀ {l₁ l₂ : List HistRow}, List.Perm l₁ l₂ → List.Sorted rowLe l₁ →
      List.Sorted rowLe l₂ → (l₁.map natKey).Nodup → l₁ = l₂ := by
  intro l₁
  induction l₁ with
  | nil =>
    intro l₂ hp _ _ _
    exact hp.nil_eq
  | cons x xs ih =>
    intro l₂ hp hs₁ hs₂ hn
    rcases l₂ with _ | ⟨y, ys⟩
    · exact absurd hp.symm.nil_eq (by simp)
    have hnc : (∀ z ∈ xs, ¬ natKey z = natKey x) ∧ (xs.map natKey).Nodup := by
      simpa using hn
    have hxy : x = y := by
      by_contra hne
      have hx2 : x ∈ y :: ys := hp.mem_iff.mp (List.mem_cons_self _ _)
      have hxys : x ∈ ys := by
        rcases List.mem_cons.mp hx2 with h | h
        · exact absurd h hne
        · exact h
      have hyx : rowLe y x := List.rel_of_sorted_cons hs₂ x hxys
      have hy1 : y ∈ x :: xs := hp.symm.mem_iff.mp (List.mem_cons_self _ _)
      have hyxs : y ∈ xs := by
        rcases List.mem_cons.mp hy1 with h | h
        · exact absurd h.symm hne
        · exact h
      have hxy' : rowLe x y := List.rel_of_sorted_cons hs₁ y hyxs
      have hkey : natKey x = natKey y := rowLe_both hxy' hyx
      exact hnc.1 y hyxs hkey.symm
    subst hxy
    have htail := hp.cons_inv
    have := ih htail (List.sorted_cons.mp hs₁).2 (List.sorted_cons.mp hs₂).2 hnc.2
    rw [this]

/-! ### Deduplication facts -/

lemma dedupLast_subset : ∀ {l : List HistRow} {y : HistRow}, y ∈ dedupLast l → y ∈ l := by
  intro l
  induction l with
  | nil => intro y hy; exact absurd hy (List.not_mem_nil _)
  | cons x xs ih =>
    intro y hy
    rw [dedupLast] at hy
    by_cases h : natKey x ∈ xs.map natKey
    · rw [if_pos h] at hy
      exact List.mem_cons_of_mem x (ih hy)
    · rw [if_neg h] at hy
      rcases List.mem_cons.mp hy with rfl | hy'
      · exact List.mem_cons_self _ _
      · exact List.mem_cons_of_mem x (ih hy')

lemma dedupLast_nodupKeys (l : List HistRow) : ((dedupLast l).map natKey).Nodup := by
  induction l with
  | nil => simp [dedupLast]
  | cons x xs ih =>
    rw [dedupLast]
    by_cases h : natKey x ∈ xs.map natKey
    · rw [if_pos h]
      exact ih
    · rw [if_neg h]
      rw [List.map_cons, List.nodup_cons]
      refine ⟨?_, ih⟩
      intro hcon
      apply h
      rcases List.mem_map.mp hcon with ⟨y, hy, hk⟩
      exact hk ▸ List.mem_map_of_mem natKey (dedupLast_subset hy)

lemma mem_dedupLast {l : List HistRow} {y : HistRow} :
    y ∈ dedupLast l ↔ lastWithKey l (natKey y) = some y := by
  induction l with
  | nil =>
    rw [dedupLast, lastWithKey]
    simp
  | cons x xs ih =>
    rw [dedupLast]
    by_cases h : natKey x ∈ xs.map natKey
    · rw [if_pos h, ih, lastWithKey, lastWithKey]
      by_cases hk : natKey x = natKey y
      · have hne : xs.filter (fun r => natKey r = natKey y) ≠ [] := by
          rcases List.mem_map.mp h with ⟨z, hz, hzk⟩
          exact List.ne_nil_of_mem
            (List.mem_filter.mpr ⟨hz, decide_eq_true (hzk.trans hk)⟩)
        have hfc : (x :: xs).filter (fun r => natKey r = natKey y) =
            x :: xs.filter (fun r => natKey r = natKey y) :=
          List.filter_cons_of_pos (decide_eq_true hk)
        rw [hfc]
        rcases hlast : (xs.filter (fun r => natKey r = natKey y)).getLast? with _ | z
        · exact absurd (List.getLast?_eq_none_iff.mp hlast) hne
        · rw [List.getLast?_cons, hlast]
          rfl
      · have hfc : (x :: xs).filter (fun r => natKey r = natKey y) =
            xs.filter (fun r => natKey r = natKey y) :=
          List.filter_cons_of_neg (by simpa using hk)
        rw [hfc]
    · rw [if_neg h]
      have hxnotin : ∀ (hk : natKey x = natKey y),
          xs.filter (fun r => natKey r = natKey y) = [] := by
        intro hk
        rw [List.filter_eq_nil_iff]
        intro z hz
        simp only [decide_eq_true_eq]
        intro hzk
        exact h ((hzk.trans hk.symm) ▸ List.mem_map_of_mem natKey hz)
      constructor
      · intro hy
        rcases List.mem_cons.mp hy with rfl | hy'
        · have hfc : (y :: xs).filter (fun r => natKey r = natKey y) =
              y :: xs.filter (fun r => natKey r = natKey y) :=
            List.filter_cons_of_pos (by simp)
          rw [lastWithKey, hfc, hxnotin rfl]
          rfl
        · have hk : natKey x ≠ natKey y := by
            intro hcon
            apply h
            rw [hcon]
            exact List.mem_map_of_mem natKey (dedupLast_subset hy')
          have hfc : (x :: xs).filter (fun r => natKey r = natKey y) =
              xs.filter (fun r => natKey r = natKey y) :=
            List.filter_cons_of_neg (by simpa using hk)
          rw [lastWithKey, hfc]
          exact ih.mp hy'
      · intro hlast
        by_cases hk : natKey x = natKey y
        · have hfc : (x :: xs).filter (fun r => natKey r = natKey y) =
              x :: xs.filter (fun r => natKey r = natKey y) :=
            List.filter_cons_of_pos (decide_eq_true hk)
          rw [lastWithKey, hfc, hxnotin hk] at hlast
          cases Option.some.inj hlast
          exact List.mem_cons_self _ _
        · have hfc : (x :: xs).filter (fun r => natKey r = natKey y) =
              xs.filter (fun r => natKey r = natKey y) :=
            List.filter_cons_of_neg (by simpa using hk)
          rw [lastWithKey, hfc] at hlast
          exact List.mem_cons_of_mem x (ih.mpr hlast)

lemma lastWithKey_append {l₁ l₂ : List HistRow} {k : String × Int × String × String} :
    lastWithKey (l₁ ++ l₂) k =
      if k ∈ l₂.map natKey then lastWithKey l₂ k else lastWithKey l₁ k := by
  rw [lastWithKey, List.filter_append, List.getLast?_append]
  by_cases h : k ∈ l₂.map natKey
  · rw [if_pos h]
    have hne : l₂.filter (fun r => natKey r = k) ≠ [] := by
      rcases List.mem_map.mp h with ⟨z, hz, hzk⟩
      exact List.ne_nil_of_mem (List.mem_filter.mpr ⟨hz, decide_eq_true hzk⟩)
    rcases hlast : (l₂.filter (fun r => natKey r = k)).getLast? with _ | z
    · exact absurd (List.getLast?_eq_none_iff.mp hlast) hne
    · rw [lastWithKey, hlast]
      rfl
  · rw [if_neg h]
    have hnil : l₂.filter (fun r => natKey r = k) = [] := by
      rw [List.filter_eq_nil_iff]
      intro z hz
      simp only [decide_eq_true_eq]
      intro hzk
      exact h (hzk ▸ List.mem_map_of_mem natKey hz)
    rw [hnil]
    rfl

lemma filter_key_of_nodupKeys :
    ∀ {l : List HistRow} {y : HistRow}, (l.map natKey).Nodup → y ∈ l →
      l.filter (fun r => natKey r = natKey y) = [y] := by
  intro l
  induction l with
  | nil => intro y _ hy; exact absurd hy (List.not_mem_nil _)
  | cons x xs ih =>
    intro y hn hy
    have hnc : (∀ z ∈ xs, ¬ natKey z = natKey x) ∧ (xs.map natKey).Nodup := by
      simpa using hn
    rcases List.mem_cons.mp hy with rfl | hy'
    · rw [List.filter_cons_of_pos (by simp), List.filter_eq_nil_iff.mpr ?_]
      intro z hz
      simp only [decide_eq_true_eq]
      exact hnc.1 z hz
    · have hk : natKey x ≠ natKey y := by
        intro hcon
        exact hnc.1 y hy' hcon.symm
      rw [List.filter_cons_of_neg (by simpa using hk)]
      exact ih hnc.2 hy'

lemma mem_iff_lastWithKey {l : List HistRow} {y : HistRow}
    (hn : (l.map natKey).Nodup) :
    y ∈ l ↔ lastWithKey l (natKey y) = some y := by
  constructor
  · intro hy
    rw [lastWithKey, filter_key_of_nodupKeys hn hy]
    rfl
  · intro hlast
    have : y ∈ l.filter (fun r => natKey r = natKey y) :=
      List.mem_of_mem_getLast? (Option.mem_def.mpr hlast)
    exact (List.mem_filter.mp this).1

/-- C7: `append` deduplicates the concatenation by the natural key
`(as_of_date, window_days, section, metric_key)` keeping the last occurrence
(new rows win) and sorts by `(as_of_date, section, metric_key, window_days)`;
consequently re-appending the same rows is idempotent — the result has no
duplicate natural keys and equals the first append.  (For a nonempty batch
the result is sorted and is, up to order, exactly the keep-last
deduplication of `existing ++ new`; an empty batch returns the empty
frame.) -/
theorem append_history_idempotent (existing newRows : List HistRow) :
    appendHistoryRows (appendHistoryRows existing newRows) newRows =
      appendHistoryRows existing newRows
    ∧ ((appendHistoryRows existing newRows).map natKey).Nodup
    ∧ (newRows ≠ [] →
        List.Sorted rowLe (appendHistoryRows existing newRows) ∧
        List.Perm (appendHistoryRows existing newRows)
          (dedupLast (existing ++ newRows))) := by
  rcases eq_or_ne newRows [] with rfl | hne
  · refine ⟨?_, ?_, fun hcon => absurd rfl hcon⟩
    · rw [appendHistoryRows, if_pos rfl, appendHistoryRows, if_pos rfl]
    · rw [appendHistoryRows, if_pos rfl]
      simp
  · have hA : appendHistoryRows existing newRows =
        sortRows (dedupLast (existing ++ newRows)) := by
      rw [appendHistoryRows, if_neg hne]
    have hpermA : List.Perm (sortRows (dedupLast (existing ++ newRows)))
        (dedupLast (existing ++ newRows)) := List.perm_insertionSort _ _
    have hnkA : ((sortRows (dedupLast (existing ++ newRows))).map natKey).Nodup :=
      ((hpermA.map natKey).nodup_iff).mpr (dedupLast_nodupKeys _)
    have hmem : ∀ y,
        y ∈ dedupLast (sortRows (dedupLast (existing ++ newRows)) ++ newRows) ↔
        y ∈ sortRows (dedupLast (existing ++ newRows)) := by
      intro y
      rw [mem_dedupLast, lastWithKey_append]
      by_cases hk : natKey y ∈ newRows.map natKey
      · rw [if_pos hk, hpermA.mem_iff, mem_dedupLast, lastWithKey_append,
          if_pos hk]
      · rw [if_neg hk]
        exact (mem_iff_lastWithKey hnkA).symm
    have hpermMain :
        List.Perm (dedupLast (sortRows (dedupLast (existing ++ newRows)) ++ newRows))
          (sortRows (dedupLast (existing ++ newRows))) :=
      (List.perm_ext_iff_of_nodup
        (List.Nodup.of_map natKey (dedupLast_nodupKeys _))
        (List.Nodup.of_map natKey hnkA)).mpr hmem
    refine ⟨?_, ?_, fun _ => ⟨?_, ?_⟩⟩
    · rw [hA, appendHistoryRows, if_neg hne]
      exact eq_of_perm_sorted_nodupKeys
        ((List.perm_insertionSort rowLe _).trans hpermMain)
        (sorted_sortRows _) (sorted_sortRows _)
        (((List.perm_insertionSort rowLe _).map natKey).nodup_iff.mpr
          (dedupLast_nodupKeys _))
    · rw [hA]
      exact hnkA
    · rw [hA]
      exact sorted_sortRows _
    · rw [hA]
      exact hpermA

/-- C7 witness: one stored row and a two-row batch whose second row replaces
the stored row's natural key with a new payload. -/
theorem append_history_idempotent_witness :
    appendHistoryRows
      (appendHistoryRows [⟨"2024-01-01", 1, "s", "m", "old"⟩]
        [⟨"2024-01-02", 1, "s", "m", "q"⟩, ⟨"2024-01-01", 1, "s", "m", "new"⟩])
      [⟨"2024-01-02", 1, "s", "m", "q"⟩, ⟨"2024-01-01", 1, "s", "m", "new"⟩] =
      appendHistoryRows [⟨"2024-01-01", 1, "s", "m", "old"⟩]
        [⟨"2024-01-02", 1, "s", "m", "q"⟩, ⟨"2024-01-01", 1, "s", "m", "new"⟩]
    ∧ List.Sorted rowLe
        (appendHistoryRows [⟨"2024-01-01", 1, "s", "m", "old"⟩]
          [⟨"2024-01-02", 1, "s", "m", "q"⟩, ⟨"2024-01-01", 1, "s", "m", "new"⟩]) :=
  ⟨(append_history_idempotent [⟨"2024-01-01", 1, "s", "m", "old"⟩]
      [⟨"2024-01-02", 1, "s", "m", "q"⟩, ⟨"2024-01-01", 1, "s", "m", "new"⟩]).1,
   ((append_history_idempotent [⟨"2024-01-01", 1, "s", "m", "old"⟩]
      [⟨"2024-01-02", 1, "s", "m", "q"⟩, ⟨"2024-01-01", 1, "s", "m", "new"⟩]).2.2
      (by decide)).1⟩

end LoonieReporting

